import Mathlib

/-!
Verification of the go-redis-server repository against its specification.

The development is a shallow embedding of the Go sources:

* `resp` package (`main.go` after the separator): `RespValue`, `WriteResp`
  (here `encodeRV`), `ReadResp` / `readLine` / `readBulkString` /
  `readArray` (here `readRespF` and friends, with an explicit fuel
  parameter standing for the recursion that Go performs directly; the
  fuel is a modelling artifact and all theorems supply enough of it).
  Go panics (negative slice bounds, `make` with negative length) are an
  explicit `.panicked` outcome.
* `storage` package (`storage.go`): the `sync.Map` becomes an
  association list `Store`, the five Go value shapes become the `Value`
  inductive.  Machine integers (`int64`) are modelled as `Int` together
  with `wrap64`, which performs two's-complement wrap-around exactly
  where Go's `++`/`--` overflow.  `float64` scores are modelled as `Int`:
  every property verified here depends only on equality and order of
  scores, and all concrete scores used are small integers, exactly
  representable as `float64`.
* `command` package (`command.go`): the full command registry and every
  validator (`New...Command`), plus the `Apply` methods needed by the
  claims.  `strconv.ParseFloat` is abstracted as a parameter
  `pf : String → Option Int` (the verified statements hold for every
  instantiation); `strconv.ParseInt`/`Atoi` are modelled by
  `parseInt64`.
* `network` package (`server.go`): the per-request body of
  `handleConnection` becomes `handleRequest`, parametrised by the
  execution function, since the claims about it concern the
  parse-failure path only.

Strings are byte strings in Go; the model uses `String` = list of
`Char` and compares characters by code point, which agrees with Go's
byte-wise comparison on ASCII data (all concrete data used is ASCII).
-/

/-! ## Decimal integers: `strconv.ParseInt`, `strconv.FormatInt`, `%d` -/

/-- Value of a list of decimal digit characters, most significant first. -/
def digitsVal (cs : List Char) : Nat :=
  cs.foldl (fun a c => a * 10 + (c.toNat - 48)) 0

/-- Digit-and-range part of `strconv.ParseInt`: `neg` records a leading
minus sign already consumed. -/
def parseInt64Core (neg : Bool) (ds : List Char) : Option Int :=
  if ds.isEmpty || !(ds.all Char.isDigit) then none
  else
    let x : Int := if neg then -(digitsVal ds : Int) else (digitsVal ds : Int)
    if -(2 ^ 63) ≤ x ∧ x ≤ 2 ^ 63 - 1 then some x else none

/-- Model of `strconv.ParseInt(s, 10, 64)` (and of `strconv.Atoi` on a
64-bit platform): optional sign, decimal digits, signed 64-bit range
check.  Returns `none` where Go returns a non-nil error. -/
def parseInt64 (s : String) : Option Int :=
  match s.data with
  | [] => none
  | c :: cs =>
    if c = '-' then parseInt64Core true cs
    else if c = '+' then parseInt64Core false cs
    else parseInt64Core false (c :: cs)

/-- Decimal digit character for a value `< 10`. -/
def decDigit (d : Nat) : Char :=
  match d with
  | 0 => '0' | 1 => '1' | 2 => '2' | 3 => '3' | 4 => '4'
  | 5 => '5' | 6 => '6' | 7 => '7' | 8 => '8' | 9 => '9'
  | _ => '*'

/-- Fuel-indexed digit extraction (structural, so that the kernel can
evaluate it; `natDigitsRev` supplies `n` itself as fuel, which always
suffices since `n / 10 < n`). -/
def natDigitsRevF : Nat → Nat → List Char
  | _, 0 => []
  | 0, _ + 1 => []
  | fuel + 1, n + 1 => decDigit ((n + 1) % 10) :: natDigitsRevF fuel ((n + 1) / 10)

/-- Decimal digits of `n`, least significant first (empty for `0`). -/
def natDigitsRev (n : Nat) : List Char := natDigitsRevF n n

/-- Decimal text of a natural number (model of `%d` / `FormatInt` on
non-negative values). -/
def formatNat (n : Nat) : String :=
  if n = 0 then "0" else String.mk (natDigitsRev n).reverse

/-- Model of `strconv.FormatInt(i, 10)` and of `fmt.Fprintf`'s `%d`. -/
def formatInt (i : Int) : String :=
  if i < 0 then String.mk ('-' :: (natDigitsRev i.natAbs).reverse) else formatNat i.natAbs

/-- Two's-complement wrap-around into the signed 64-bit range: the effect
of Go's `int64` arithmetic on a mathematical integer. -/
def wrap64 (x : Int) : Int :=
  (x + 2 ^ 63) % 2 ^ 64 - 2 ^ 63

theorem wrap64_mem_range (x : Int) : -(2 ^ 63) ≤ wrap64 x ∧ wrap64 x ≤ 2 ^ 63 - 1 := by
  unfold wrap64
  omega

theorem wrap64_eq_self {x : Int} (h1 : -(2 ^ 63) ≤ x) (h2 : x ≤ 2 ^ 63 - 1) :
    wrap64 x = x := by
  unfold wrap64
  omega

theorem digitsVal_append (cs : List Char) (c : Char) :
    digitsVal (cs ++ [c]) = digitsVal cs * 10 + (c.toNat - 48) := by
  simp [digitsVal, List.foldl_append]

theorem decDigit_isDigit {d : Nat} (h : d < 10) : (decDigit d).isDigit = true := by
  interval_cases d <;> decide

theorem decDigit_toNat {d : Nat} (h : d < 10) : (decDigit d).toNat - 48 = d := by
  interval_cases d <;> decide

theorem natDigitsRevF_all_digits :
    ∀ (fuel n : Nat), (natDigitsRevF fuel n).all Char.isDigit = true := by
  intro fuel
  induction fuel with
  | zero =>
    intro n
    cases n <;> rfl
  | succ fuel ih =>
    intro n
    cases n with
    | zero => rfl
    | succ m =>
      simp only [natDigitsRevF, List.all_cons, Bool.and_eq_true]
      exact ⟨decDigit_isDigit (Nat.mod_lt _ (by omega)), ih _⟩

theorem natDigitsRev_all_digits (n : Nat) : (natDigitsRev n).all Char.isDigit = true :=
  natDigitsRevF_all_digits n n

theorem digitsVal_natDigitsRevF :
    ∀ (fuel n : Nat), n ≤ fuel → digitsVal (natDigitsRevF fuel n).reverse = n := by
  intro fuel
  induction fuel with
  | zero =>
    intro n hn
    have : n = 0 := by omega
    subst this
    rfl
  | succ fuel ih =>
    intro n hn
    cases n with
    | zero => rfl
    | succ m =>
      simp only [natDigitsRevF, List.reverse_cons]
      have hd : (m + 1) / 10 < m + 1 := Nat.div_lt_self (by omega) (by omega)
      rw [digitsVal_append, ih ((m + 1) / 10) (by omega),
          decDigit_toNat (Nat.mod_lt _ (by omega))]
      omega

theorem digitsVal_natDigitsRev (n : Nat) : digitsVal (natDigitsRev n).reverse = n :=
  digitsVal_natDigitsRevF n n (Nat.le_refl n)

theorem natDigitsRev_ne_nil {n : Nat} (h : n ≠ 0) : natDigitsRev n ≠ [] := by
  unfold natDigitsRev
  cases hn : n with
  | zero => exact absurd hn h
  | succ m =>
    simp [natDigitsRevF]

theorem parseInt64Core_eval {ds : List Char} (hne : ds ≠ [])
    (hall : ds.all Char.isDigit = true) (neg : Bool) :
    parseInt64Core neg ds =
      (if -(2 ^ 63) ≤ (if neg then -(digitsVal ds : Int) else (digitsVal ds : Int)) ∧
          (if neg then -(digitsVal ds : Int) else (digitsVal ds : Int)) ≤ 2 ^ 63 - 1
       then some (if neg then -(digitsVal ds : Int) else (digitsVal ds : Int)) else none) := by
  unfold parseInt64Core
  rw [if_neg]
  simp [List.isEmpty_iff, hne, hall]

/-- Parsing the decimal text of an in-range integer recovers it. -/
theorem parseInt64_formatInt {n : Int} (h1 : -(2 ^ 63) ≤ n) (h2 : n ≤ 2 ^ 63 - 1) :
    parseInt64 (formatInt n) = some n := by
  have hall : ∀ m : Nat, ((natDigitsRev m).reverse.all Char.isDigit) = true := by
    intro m
    simpa using natDigitsRev_all_digits m
  by_cases hn : n < 0
  · have hne : (natDigitsRev n.natAbs).reverse ≠ [] := by
      simpa using natDigitsRev_ne_nil (n := n.natAbs) (by omega)
    simp only [formatInt, if_pos hn, parseInt64, if_pos rfl]
    rw [parseInt64Core_eval hne (hall n.natAbs) true, digitsVal_natDigitsRev]
    have habs : -(n.natAbs : Int) = n := by omega
    simp only [if_pos rfl, habs, if_true]
    exact if_pos ⟨h1, h2⟩
  · by_cases h0 : n.natAbs = 0
    · have : n = 0 := by omega
      subst this
      decide
    · have hne : (natDigitsRev n.natAbs).reverse ≠ [] := by
        simpa using natDigitsRev_ne_nil (n := n.natAbs) h0
      obtain ⟨d, ds, hds⟩ : ∃ d ds, (natDigitsRev n.natAbs).reverse = d :: ds := by
        rcases hrev : (natDigitsRev n.natAbs).reverse with _ | ⟨d, ds⟩
        · exact absurd hrev hne
        · exact ⟨d, ds, rfl⟩
      have hd_digit : d.isDigit = true := by
        have := hall n.natAbs
        rw [hds] at this
        simp only [List.all_cons, Bool.and_eq_true] at this
        exact this.1
      have hd_not_minus : ¬ d = '-' := fun he => by
        rw [he] at hd_digit; exact absurd hd_digit (by decide)
      have hd_not_plus : ¬ d = '+' := fun he => by
        rw [he] at hd_digit; exact absurd hd_digit (by decide)
      have hdata : (formatInt n).data = (natDigitsRev n.natAbs).reverse := by
        simp only [formatInt, if_neg hn, formatNat, if_neg h0]
      simp only [parseInt64, hdata, hds, if_neg hd_not_minus, if_neg hd_not_plus]
      rw [← hds, parseInt64Core_eval hne (hall n.natAbs) false, digitsVal_natDigitsRev]
      have habs : (n.natAbs : Int) = n := by omega
      simp only [Bool.false_eq_true, if_false, habs]
      rw [if_pos (by omega)]

/-! ## Generic helpers: lexicographic string order and comparator sort -/

/-- Lexicographic comparison of character lists by code point; agrees
with Go's byte-wise `<` on strings for ASCII data. -/
def strLtChars : List Char → List Char → Bool
  | [], [] => false
  | [], _ :: _ => true
  | _ :: _, [] => false
  | a :: as, b :: bs => if a < b then true else if b < a then false else strLtChars as bs

/-- Model of Go's `<` on strings. -/
def goStrLt (s t : String) : Bool := strLtChars s.data t.data

/-- Ordered insertion for `sortBy`. -/
def insertBy (le : α → α → Bool) (x : α) : List α → List α
  | [] => [x]
  | y :: ys => if le x y then x :: y :: ys else y :: insertBy le x ys

/-- Comparator sort.  Go's `sort.Slice` may use any algorithm; on the
comparators used here (strict total orders on entries with pairwise
distinct members) every sort produces the same list, so insertion sort
is a faithful model. -/
def sortBy (le : α → α → Bool) : List α → List α
  | [] => []
  | x :: xs => insertBy le x (sortBy le xs)

theorem insertBy_perm (le : α → α → Bool) (x : α) (l : List α) :
    List.Perm (insertBy le x l) (x :: l) := by
  induction l with
  | nil => simp [insertBy]
  | cons y ys ih =>
    simp only [insertBy]
    split
    · exact List.Perm.refl _
    · exact ((ih.cons y).trans (List.Perm.swap x y ys))

theorem sortBy_perm (le : α → α → Bool) (l : List α) : List.Perm (sortBy le l) l := by
  induction l with
  | nil => exact List.Perm.refl _
  | cons x xs ih => exact (insertBy_perm le x (sortBy le xs)).trans (ih.cons x)

theorem insertBy_pairwise (le : α → α → Bool)
    (total : ∀ a b, le a b = true ∨ le b a = true)
    (trans : ∀ a b c, le a b = true → le b c = true → le a c = true)
    (x : α) (m : List α) (hm : List.Pairwise (fun a b => le a b = true) m) :
    List.Pairwise (fun a b => le a b = true) (insertBy le x m) := by
  induction m with
  | nil => simp [insertBy]
  | cons y ys ihm =>
    simp only [insertBy]
    rcases List.pairwise_cons.mp hm with ⟨hy, hys⟩
    split
    · rename_i hxy
      refine List.Pairwise.cons ?_ hm
      intro z hz
      rcases List.mem_cons.mp hz with rfl | hz2
      · exact hxy
      · exact trans x y z hxy (hy z hz2)
    · rename_i hxy
      have hyx : le y x = true := by
        rcases total x y with h | h
        · exact absurd h hxy
        · exact h
      refine List.Pairwise.cons ?_ (ihm hys)
      intro z hz
      rcases List.mem_cons.mp ((insertBy_perm le x ys).mem_iff.mp hz) with rfl | hz2
      · exact hyx
      · exact hy z hz2

theorem sortBy_pairwise (le : α → α → Bool)
    (total : ∀ a b, le a b = true ∨ le b a = true)
    (trans : ∀ a b c, le a b = true → le b c = true → le a c = true)
    (l : List α) : List.Pairwise (fun a b => le a b = true) (sortBy le l) := by
  induction l with
  | nil => exact List.Pairwise.nil
  | cons x xs ih => exact insertBy_pairwise le total trans x (sortBy le xs) ih

/-! ## RESP codec (`resp` package) -/

/-- Parsed RESP value (`resp.RespValue`).  The Go struct is a tagged
record whose tag ranges over the five constructors below; the `New*`
helpers and the decoder construct no other tags. -/
inductive RespValue where
  | simple (s : String)
  | errv (s : String)
  | int (n : Int)
  | bulk (s : String)
  | array (elems : List RespValue)

mutual

/-- `resp.WriteResp` for one value, as the byte (char) sequence written:
`+s\r\n`, `-s\r\n`, `:%d\r\n`, `$len\r\n..\r\n`, `*len\r\n` followed by
the encoded elements.  Note that a bulk string is always written with
its actual length: there is no encoding that produces `$-1`. -/
def encodeRV : RespValue → List Char
  | .simple s => '+' :: (s.data ++ ['\r', '\n'])
  | .errv s => '-' :: (s.data ++ ['\r', '\n'])
  | .int n => ':' :: ((formatInt n).data ++ ['\r', '\n'])
  | .bulk s => '$' :: ((formatNat s.data.length).data ++ ['\r', '\n'] ++ s.data ++ ['\r', '\n'])
  | .array es => '*' :: ((formatNat es.length).data ++ ['\r', '\n'] ++ encodeList es)

/-- Concatenation of the encodings of a list of values (the loop in
`WriteResp`'s array case). -/
def encodeList : List RespValue → List Char
  | [] => []
  | v :: vs => encodeRV v ++ encodeList vs

end

/-- Outcome of `readLine`: the line with its trailing two characters
stripped, an error (no `\n` before end of input, i.e. `ReadString`
fails), or a Go panic (`line[:len(line)-2]` with a line of length 1). -/
inductive LineRes where
  | ok (line : String) (rest : List Char)
  | fail
  | panicked

/-- `bufio.Reader.ReadString('\n')`: the prefix up to and including the
first newline, or `none` at end of input. -/
def splitAtNL : List Char → Option (List Char × List Char)
  | [] => none
  | c :: cs =>
    if c = '\n' then some ([c], cs)
    else
      match splitAtNL cs with
      | none => none
      | some (line, rest) => some (c :: line, rest)

/-- `resp.readLine`: reads to the first `\n` and removes the last two
characters of the line.  A line consisting of a bare `\n` has length 1,
so `line[:len(line)-2]` panics in Go. -/
def readLine (cs : List Char) : LineRes :=
  match splitAtNL cs with
  | none => .fail
  | some (line, rest) =>
    if line.length < 2 then .panicked
    else .ok (String.mk (line.take (line.length - 2))) rest

/-- Outcome of reading one RESP value.  `.fail` stands for every path on
which Go returns a non-nil error (EOF, `ParseInt` failure, unknown type
byte); `.panicked` for a Go runtime panic; `.outOfFuel` is the
modelling artifact of the explicit fuel and is never reached with the
fuel supplied by `decodeResp`. -/
inductive ReadRes where
  | ok (v : RespValue) (rest : List Char)
  | fail
  | panicked
  | outOfFuel

/-- Outcome of the element-reading loop of `readArray`. -/
inductive ElemsRes where
  | ok (vs : List RespValue) (rest : List Char)
  | fail
  | panicked
  | outOfFuel

/-- `resp.readBulkString` (after the `$` byte): length line, `-1` gives
the "null bulk" which is constructed as `NewBulk("")`, a negative
length below `-1` panics in `make([]byte, length)`, otherwise the
payload is read followed by two unchecked bytes. -/
def readBulk (cs : List Char) : ReadRes :=
  match readLine cs with
  | .fail => .fail
  | .panicked => .panicked
  | .ok lenStr rest =>
    match parseInt64 lenStr with
    | none => .fail
    | some len =>
      if len = -1 then .ok (.bulk "") rest
      else if len < 0 then .panicked
      else
        if rest.length < len.toNat then .fail
        else
          match rest.drop len.toNat with
          | [] => .fail
          | [_] => .fail
          | _ :: _ :: rest2 => .ok (.bulk (String.mk (rest.take len.toNat))) rest2

mutual

/-- `resp.ReadResp` with explicit fuel: dispatch on the type byte, then
the corresponding `readSimpleString` / `readError` / `readInteger` /
`readBulkString` / `readArray` body. -/
def readRespF : Nat → List Char → ReadRes
  | 0, _ => .outOfFuel
  | _ + 1, [] => .fail
  | fuel + 1, c :: r =>
    if c = '+' then
      match readLine r with
      | .ok s rest => .ok (.simple s) rest
      | .fail => .fail
      | .panicked => .panicked
    else if c = '-' then
      match readLine r with
      | .ok s rest => .ok (.errv s) rest
      | .fail => .fail
      | .panicked => .panicked
    else if c = ':' then
      match readLine r with
      | .fail => .fail
      | .panicked => .panicked
      | .ok s rest =>
        match parseInt64 s with
        | none => .fail
        | some n => .ok (.int n) rest
    else if c = '$' then readBulk r
    else if c = '*' then
      match readLine r with
      | .fail => .fail
      | .panicked => .panicked
      | .ok lenStr rest =>
        match parseInt64 lenStr with
        | none => .fail
        | some len =>
          if len = -1 then .ok (.array []) rest
          else if len < 0 then .panicked
          else
            match readElemsF fuel len.toNat rest with
            | .ok vs rest2 => .ok (.array vs) rest2
            | .fail => .fail
            | .panicked => .panicked
            | .outOfFuel => .outOfFuel
    else .fail

/-- The element loop of `resp.readArray`. -/
def readElemsF : Nat → Nat → List Char → ElemsRes
  | 0, _, _ => .outOfFuel
  | _ + 1, 0, cs => .ok [] cs
  | fuel + 1, n + 1, cs =>
    match readRespF fuel cs with
    | .ok v rest =>
      match readElemsF fuel n rest with
      | .ok vs rest2 => .ok (v :: vs) rest2
      | .fail => .fail
      | .panicked => .panicked
      | .outOfFuel => .outOfFuel
    | .fail => .fail
    | .panicked => .panicked
    | .outOfFuel => .outOfFuel

end

/-- The decoder on a finite input: `ReadResp` with enough fuel that the
`.outOfFuel` artifact is unreachable (each recursive level consumes
input). -/
def decodeResp (input : List Char) : ReadRes :=
  readRespF (input.length + 1) input

mutual

/-- Well-formed RESP values: the values the Go `resp` package can
produce and re-read.  Simple strings and errors must not contain a
newline (Go writes them unescaped and re-reads up to the first `\n`);
integers are `int64`; lengths fit in an `int`. -/
def wfRV : RespValue → Bool
  | .simple s => !s.data.contains '\n'
  | .errv s => !s.data.contains '\n'
  | .int n => decide (-(2 ^ 63) ≤ n ∧ n ≤ 2 ^ 63 - 1)
  | .bulk s => decide ((s.data.length : Int) ≤ 2 ^ 63 - 1)
  | .array es => decide ((es.length : Int) ≤ 2 ^ 63 - 1) && wfListRV es

/-- Well-formedness of a list of values. -/
def wfListRV : List RespValue → Bool
  | [] => true
  | v :: vs => wfRV v && wfListRV vs

end

mutual

/-- Fuel needed by `readRespF` to decode the encoding of a value (a
bound on recursion depth, not on input length). -/
def fuelRV : RespValue → Nat
  | .simple _ => 1
  | .errv _ => 1
  | .int _ => 1
  | .bulk _ => 1
  | .array es => 1 + fuelElems es

/-- Fuel needed by `readElemsF` for a list of encoded values. -/
def fuelElems : List RespValue → Nat
  | [] => 1
  | v :: vs => 1 + fuelRV v + fuelElems vs

end

theorem fuelRV_pos (v : RespValue) : 1 ≤ fuelRV v := by
  cases v <;> simp [fuelRV]

theorem fuelElems_pos (es : List RespValue) : 1 ≤ fuelElems es := by
  cases es with
  | nil => simp [fuelElems]
  | cons v vs => simp only [fuelElems]; omega

mutual

theorem fuelRV_lt_encLen (v : RespValue) : fuelRV v + 1 ≤ (encodeRV v).length := by
  match v with
  | .simple s => simp [fuelRV, encodeRV]
  | .errv s => simp [fuelRV, encodeRV]
  | .int n => simp [fuelRV, encodeRV]
  | .bulk s => simp [fuelRV, encodeRV]; omega
  | .array es =>
    have h := fuelElems_le_encLen es
    simp only [fuelRV, encodeRV, List.length_cons, List.length_append]
    omega

theorem fuelElems_le_encLen (es : List RespValue) :
    fuelElems es ≤ 1 + (encodeList es).length := by
  match es with
  | [] => simp [fuelElems, encodeList]
  | v :: vs =>
    have h1 := fuelRV_lt_encLen v
    have h2 := fuelElems_le_encLen vs
    simp only [fuelElems, encodeList, List.length_append]
    omega

end

theorem splitAtNL_encode {s : List Char} (h : '\n' ∉ s) (rest : List Char) :
    splitAtNL (s ++ '\n' :: rest) = some (s ++ ['\n'], rest) := by
  induction s with
  | nil => simp [splitAtNL]
  | cons c cs ih =>
    have hc : ¬ c = '\n' := fun he => h (he ▸ List.mem_cons_self c cs)
    have hcs : '\n' ∉ cs := fun hm => h (List.mem_cons_of_mem c hm)
    show (if c = '\n' then some ([c], cs ++ '\n' :: rest)
          else match splitAtNL (cs ++ '\n' :: rest) with
               | none => none
               | some (line, r2) => some (c :: line, r2)) = some ((c :: cs) ++ ['\n'], rest)
    rw [if_neg hc, ih hcs]
    simp

theorem readLine_encode {s : List Char} (h : '\n' ∉ s) (rest : List Char) :
    readLine (s ++ '\r' :: '\n' :: rest) = .ok (String.mk s) rest := by
  have h2 : '\n' ∉ s ++ ['\r'] := by
    intro hm
    rcases List.mem_append.mp hm with hm | hm
    · exact h hm
    · simp at hm
  have hsplit := splitAtNL_encode h2 rest
  have heq : (s ++ ['\r']) ++ '\n' :: rest = s ++ '\r' :: '\n' :: rest := by simp
  rw [heq] at hsplit
  simp only [readLine, hsplit]
  have hlen : (s ++ ['\r'] ++ ['\n']).length = s.length + 2 := by simp
  rw [if_neg (by simp [hlen])]
  have htake : (s ++ ['\r'] ++ ['\n']).take ((s ++ ['\r'] ++ ['\n']).length - 2) = s := by
    have : s ++ ['\r'] ++ ['\n'] = s ++ ['\r', '\n'] := by simp
    rw [this]
    have hl : (s ++ ['\r', '\n']).length - 2 = s.length := by simp
    rw [hl]
    exact List.take_left s ['\r', '\n']
  simp only [List.append_assoc, List.cons_append, List.nil_append] at htake ⊢
  rw [htake]

theorem no_nl_natDigitsRev (n : Nat) : '\n' ∉ (natDigitsRev n).reverse := by
  intro hm
  have hall := natDigitsRev_all_digits n
  rw [List.all_eq_true] at hall
  have := hall _ (List.mem_reverse.mp hm)
  exact absurd this (by decide)

theorem no_nl_formatNat (n : Nat) : '\n' ∉ (formatNat n).data := by
  unfold formatNat
  split
  · decide
  · exact no_nl_natDigitsRev n

theorem no_nl_formatInt (i : Int) : '\n' ∉ (formatInt i).data := by
  unfold formatInt
  split
  · intro hm
    rcases List.mem_cons.mp hm with he | hm
    · exact absurd he (by decide)
    · exact no_nl_natDigitsRev i.natAbs hm
  · exact no_nl_formatNat i.natAbs

theorem parseInt64_formatNat {m : Nat} (h : (m : Int) ≤ 2 ^ 63 - 1) :
    parseInt64 (formatNat m) = some m := by
  have h1 : formatInt (m : Int) = formatNat m := by
    unfold formatInt
    rw [if_neg (by omega)]
    simp
  have := parseInt64_formatInt (n := (m : Int)) (by omega) h
  rwa [h1] at this

/-- With enough fuel, the decoder inverts the encoder (simultaneously
for single values and element lists). -/
theorem readRespF_ok_encode :
    ∀ fuel,
      (∀ v tail, wfRV v = true → fuelRV v ≤ fuel →
        readRespF fuel (encodeRV v ++ tail) = .ok v tail) ∧
      (∀ es tail, wfListRV es = true → fuelElems es ≤ fuel →
        readElemsF fuel es.length (encodeList es ++ tail) = .ok es tail) := by
  intro fuel
  induction fuel using Nat.strong_induction_on with
  | _ fuel ih =>
    constructor
    · intro v tail hwf hfuel
      rcases fuel with _ | f
      · exact absurd hfuel (by have := fuelRV_pos v; omega)
      · cases v with
        | simple s =>
          have hnl : '\n' ∉ s.data := by simpa [wfRV] using hwf
          have henc : encodeRV (.simple s) ++ tail = '+' :: (s.data ++ '\r' :: '\n' :: tail) := by
            simp [encodeRV]
          have e1 := readLine_encode hnl tail
          rw [henc]
          simp only [readRespF]
          simp [e1]
        | errv s =>
          have hnl : '\n' ∉ s.data := by simpa [wfRV] using hwf
          have henc : encodeRV (.errv s) ++ tail = '-' :: (s.data ++ '\r' :: '\n' :: tail) := by
            simp [encodeRV]
          have e1 := readLine_encode hnl tail
          rw [henc]
          simp only [readRespF]
          simp [e1]
        | int n =>
          have hr : -(2 ^ 63) ≤ n ∧ n ≤ 2 ^ 63 - 1 := by simpa [wfRV] using hwf
          have henc : encodeRV (.int n) ++ tail =
              ':' :: ((formatInt n).data ++ '\r' :: '\n' :: tail) := by
            simp [encodeRV]
          have e1 := readLine_encode (no_nl_formatInt n) tail
          have e2 : parseInt64 (String.mk (formatInt n).data) = some n :=
            parseInt64_formatInt hr.1 hr.2
          rw [henc]
          simp only [readRespF]
          simp [e1, e2]
        | bulk s =>
          have hlen : (s.length : Int) ≤ 2 ^ 63 - 1 := by simpa [wfRV] using hwf
          have henc : encodeRV (.bulk s) ++ tail =
              '$' :: ((formatNat s.length).data ++
                '\r' :: '\n' :: (s.data ++ '\r' :: '\n' :: tail)) := by
            simp [encodeRV]
          have e1 := readLine_encode (no_nl_formatNat s.length)
            (s.data ++ '\r' :: '\n' :: tail)
          have e2 : parseInt64 (String.mk (formatNat s.length).data) =
              some (s.length : Int) := parseInt64_formatNat hlen
          have h1 : ¬ ((s.length : Int) = -1) := by omega
          have h2 : ¬ ((s.length : Int) < 0) := by omega
          have h3 : ¬ ((s.data ++ '\r' :: '\n' :: tail).length < s.length) := by
            have hsl : s.length = s.data.length := rfl
            simp only [List.length_append, List.length_cons, hsl]
            omega
          have h5 : List.drop s.length (s.data ++ '\r' :: '\n' :: tail) =
              '\r' :: '\n' :: tail := List.drop_left s.data _
          have h6 : List.take s.length (s.data ++ '\r' :: '\n' :: tail) = s.data :=
            List.take_left s.data _
          rw [henc]
          simp only [readRespF]
          simp [readBulk, e1, e2, h1, h2, h3, h5, h6]
        | array es =>
          have hwf2 : ((es.length : Int) ≤ 2 ^ 63 - 1) ∧ wfListRV es = true := by
            simpa [wfRV] using hwf
          have hfe : fuelElems es ≤ f := by
            have hx : fuelRV (.array es) = 1 + fuelElems es := rfl
            omega
          have henc : encodeRV (.array es) ++ tail =
              '*' :: ((formatNat es.length).data ++
                '\r' :: '\n' :: (encodeList es ++ tail)) := by
            simp [encodeRV]
          have e1 := readLine_encode (no_nl_formatNat es.length) (encodeList es ++ tail)
          have e2 : parseInt64 (String.mk (formatNat es.length).data) =
              some (es.length : Int) := parseInt64_formatNat hwf2.1
          have e3 := (ih f (by omega)).2 es tail hwf2.2 hfe
          have h1 : ¬ ((es.length : Int) = -1) := by omega
          have h2 : ¬ ((es.length : Int) < 0) := by omega
          have h4 : ((es.length : Int)).toNat = es.length := by omega
          rw [henc]
          simp only [readRespF]
          simp [e1, e2, e3, h1, h2, h4]
    · intro es tail hwf hfuel
      rcases fuel with _ | f
      · exact absurd hfuel (by have := fuelElems_pos es; omega)
      · cases es with
        | nil =>
          show readElemsF (f + 1) 0 (encodeList [] ++ tail) = .ok [] tail
          simp [encodeList, readElemsF]
        | cons v vs =>
          have hwf2 : wfRV v = true ∧ wfListRV vs = true := by
            simpa [wfListRV] using hwf
          have hfv : fuelRV v ≤ f := by
            have h1 := fuelElems_pos vs
            simp only [fuelElems] at hfuel
            omega
          have hfvs : fuelElems vs ≤ f := by
            have h1 := fuelRV_pos v
            simp only [fuelElems] at hfuel
            omega
          have e1 := (ih f (by omega)).1 v (encodeList vs ++ tail) hwf2.1 hfv
          have e2 := (ih f (by omega)).2 vs tail hwf2.2 hfvs
          show readElemsF (f + 1) (vs.length + 1) (encodeList (v :: vs) ++ tail) =
            .ok (v :: vs) tail
          have henc : encodeList (v :: vs) ++ tail = encodeRV v ++ (encodeList vs ++ tail) := by
            simp [encodeList]
          rw [henc]
          simp only [readElemsF]
          simp [e1, e2]

/-- Decoding the encoding of a well-formed value yields the value back,
with no input left over. -/
theorem decodeResp_encodeRV {v : RespValue} (h : wfRV v = true) :
    decodeResp (encodeRV v) = .ok v [] := by
  unfold decodeResp
  have hfe := fuelRV_lt_encLen v
  have hmain := (readRespF_ok_encode ((encodeRV v).length + 1)).1 v [] h (by omega)
  simpa using hmain

/-! ## Keyspace and values (`storage` package) -/

/-- The five value shapes a key can hold: `string`, `*list.List` of
strings, `map[string]string`, `map[string]struct{}`, and
`map[string]ZSetMember` (member → score, scores modelled as `Int`). -/
inductive Value where
  | str (s : String)
  | list (l : List String)
  | hash (h : List (String × String))
  | setv (m : List String)
  | zset (z : List (String × Int))

/-- The `sync.Map` of `Storage`: an association list with at most one
entry per key (every operation below preserves this). -/
def Store := List (String × Value)

/-- `sync.Map.Load`. -/
def lookupStore : Store → String → Option Value
  | [], _ => none
  | (k, v) :: st, key => if k = key then some v else lookupStore st key

/-- `sync.Map.Store` (and the write half of `LoadOrStore`): replace the
existing entry or append a new one. -/
def storeSet : Store → String → Value → Store
  | [], key, v => [(key, v)]
  | (k, w) :: st, key, v => if k = key then (k, v) :: st else (k, w) :: storeSet st key v

/-- `sync.Map.Delete` / the delete half of `LoadAndDelete`. -/
def storeDelete (st : Store) (key : String) : Store :=
  st.filter (fun p => p.1 ≠ key)

theorem lookupStore_set_self (st : Store) (k : String) (v : Value) :
    lookupStore (storeSet st k v) k = some v := by
  induction st with
  | nil => simp [storeSet, lookupStore]
  | cons p st ih =>
    obtain ⟨k0, w⟩ := p
    simp only [storeSet]
    by_cases h : k0 = k
    · simp [lookupStore, h]
    · simp [lookupStore, h, ih]

theorem lookupStore_delete_self (st : Store) (k : String) :
    lookupStore (storeDelete st k) k = none := by
  induction st with
  | nil => simp [storeDelete, lookupStore]
  | cons p st ih =>
    obtain ⟨k0, w⟩ := p
    simp only [storeDelete, List.filter_cons] at *
    by_cases h : k0 = k
    · simpa [h] using ih
    · simpa [h, lookupStore] using ih

/-- Result of `Storage.Get`: Go returns `("", false)` for an absent key
or a `*list.List`, the string for a string, and panics on the failed
type assertion `val.(string)` for the three map-backed shapes. -/
inductive GetRes where
  | found (s : String)
  | missing
  | panicked

/-- `Storage.Get`. -/
def sGet (st : Store) (key : String) : GetRes :=
  match lookupStore st key with
  | none => .missing
  | some (.list _) => .missing
  | some (.str s) => .found s
  | some (.hash _) => .panicked
  | some (.setv _) => .panicked
  | some (.zset _) => .panicked

/-- `Storage.Set`. -/
def sSet (st : Store) (key value : String) : Store :=
  storeSet st key (.str value)

/-- Outcome of `Incr`/`Decr`: `(int64, error)` plus the panic that
`Get` can raise. -/
inductive NumRes where
  | ok (n : Int)
  | err (msg : String)
  | panicked

/-- `Storage.Incr`: treat an absent (or list-valued!) key as 0, parse
otherwise, add one with `int64` wrap-around, store the decimal text.
Note that `Get` reports a list as absent, so INCR on a list key
replaces the list by the string `"1"`. -/
def sIncr (st : Store) (key : String) : NumRes × Store :=
  match sGet st key with
  | .panicked => (.panicked, st)
  | .missing =>
    let num := wrap64 (0 + 1)
    (.ok num, sSet st key (formatInt num))
  | .found val =>
    match parseInt64 val with
    | none => (.err "value is not an integer or out of range", st)
    | some n =>
      let num := wrap64 (n + 1)
      (.ok num, sSet st key (formatInt num))

/-- `Storage.Decr`. -/
def sDecr (st : Store) (key : String) : NumRes × Store :=
  match sGet st key with
  | .panicked => (.panicked, st)
  | .missing =>
    let num := wrap64 (0 - 1)
    (.ok num, sSet st key (formatInt num))
  | .found val =>
    match parseInt64 val with
    | none => (.err "value is not an integer or out of range", st)
    | some n =>
      let num := wrap64 (n - 1)
      (.ok num, sSet st key (formatInt num))

/-- `Storage.Del`. -/
def sDel (st : Store) : List String → Nat × Store
  | [] => (0, st)
  | k :: ks =>
    match lookupStore st k with
    | some _ =>
      let r := sDel (storeDelete st k) ks
      (r.1 + 1, r.2)
    | none => sDel st ks

/-- `Storage.Exists` (duplicated keys are counted repeatedly). -/
def sExists (st : Store) (keys : List String) : Nat :=
  keys.foldl (fun c k => if (lookupStore st k).isSome then c + 1 else c) 0

/-- The `WRONGTYPE` message shared by all typed operators. -/
def wrongTypeMsg : String :=
  "WRONGTYPE Operation against a key holding the wrong kind of value"

/-- `Storage.RPush`: `LoadOrStore(key, list.New())` then `PushBack` of
each value in order. -/
def sRPush (st : Store) (key : String) (values : List String) :
    Except String Int × Store :=
  match lookupStore st key with
  | none =>
    let l2 := [] ++ values
    (.ok (l2.length : Int), storeSet st key (.list l2))
  | some (.list l) =>
    let l2 := l ++ values
    (.ok (l2.length : Int), storeSet st key (.list l2))
  | some _ => (.error wrongTypeMsg, st)

/-- `Storage.LPush`: `PushFront` of each value in argument order. -/
def sLPush (st : Store) (key : String) (values : List String) :
    Except String Int × Store :=
  match lookupStore st key with
  | none =>
    let l2 := values.foldl (fun acc v => v :: acc) []
    (.ok (l2.length : Int), storeSet st key (.list l2))
  | some (.list l) =>
    let l2 := values.foldl (fun acc v => v :: acc) l
    (.ok (l2.length : Int), storeSet st key (.list l2))
  | some _ => (.error wrongTypeMsg, st)

/-- `Storage.LPop`: `("", nil)` for an absent key or an empty list;
otherwise remove and return the front element.  The key is NOT removed
when the list becomes empty. -/
def sLPop (st : Store) (key : String) : Except String String × Store :=
  match lookupStore st key with
  | none => (.ok "", st)
  | some (.list []) => (.ok "", st)
  | some (.list (x :: xs)) => (.ok x, storeSet st key (.list xs))
  | some _ => (.error wrongTypeMsg, st)

/-- `Storage.RPop`: like `LPop` at the back. -/
def sRPop (st : Store) (key : String) : Except String String × Store :=
  match lookupStore st key with
  | none => (.ok "", st)
  | some (.list l) =>
    if l.isEmpty then (.ok "", st)
    else (.ok (l.getLastD ""), storeSet st key (.list l.dropLast))
  | some _ => (.error wrongTypeMsg, st)

/-- `Storage.LLen`. -/
def sLLen (st : Store) (key : String) : Except String Int :=
  match lookupStore st key with
  | none => .ok 0
  | some (.list l) => .ok (l.length : Int)
  | some _ => .error wrongTypeMsg

/-- `Storage.LIndex`: negative indices from the tail, out of range gives
`""`. The element walk visits index `idx`, i.e. `l.getD idx`. -/
def sLIndex (st : Store) (key : String) (index : Int) : Except String String :=
  match lookupStore st key with
  | none => .ok ""
  | some (.list l) =>
    if l.length = 0 then .ok ""
    else
      let idx := if index < 0 then (l.length : Int) + index else index
      if idx < 0 ∨ idx ≥ (l.length : Int) then .ok ""
      else .ok (l.getD idx.toNat "")
  | some _ => .error wrongTypeMsg

/-- The start-index clamping shared verbatim by `Storage.LRange` and
`Storage.LTrim` (and the z-set range operators): add the length to a
negative index, then clamp below at 0. -/
def clampStart (length start : Int) : Int :=
  let start1 := if start < 0 then length + start else start
  if start1 < 0 then 0 else start1

/-- The stop-index clamping shared verbatim by `Storage.LRange` and
`Storage.LTrim`: add the length to a negative index, then clamp above
at `length - 1`. -/
def clampStop (length stop : Int) : Int :=
  let stop1 := if stop < 0 then length + stop else stop
  if stop1 ≥ length then length - 1 else stop1

/-- Index clamping and slice of `Storage.LRange` on the stored list: the
element walk from the clamped start to the clamped stop collects
exactly `drop` then `take`. -/
def lrangeList (l : List String) (start stop : Int) : List String :=
  if clampStart (l.length : Int) start > clampStop (l.length : Int) stop ∨
      (l.length : Int) = 0 then []
  else (l.drop (clampStart (l.length : Int) start).toNat).take
    (clampStop (l.length : Int) stop - clampStart (l.length : Int) start + 1).toNat

/-- `Storage.LRange`. -/
def sLRange (st : Store) (key : String) (start stop : Int) :
    Except String (List String) :=
  match lookupStore st key with
  | none => .ok []
  | some (.list l) => .ok (lrangeList l start stop)
  | some _ => .error wrongTypeMsg

/-- Core of `Storage.LTrim` on the stored list: `none` means the key is
deleted.  The front loop removes `clampStart` elements, the back loop
`length - (clampStop + 1)`, leaving `clampStop - clampStart + 1`
elements from index `clampStart`. -/
def ltrimCore (l : List String) (start stop : Int) : Option (List String) :=
  if clampStart (l.length : Int) start > clampStop (l.length : Int) stop ∨
      (l.length : Int) = 0 ∨ clampStart (l.length : Int) start ≥ (l.length : Int) then none
  else some ((l.drop (clampStart (l.length : Int) start).toNat).take
    (clampStop (l.length : Int) stop - clampStart (l.length : Int) start + 1).toNat)

/-- `Storage.LTrim`. -/
def sLTrim (st : Store) (key : String) (start stop : Int) :
    Except String Unit × Store :=
  match lookupStore st key with
  | none => (.ok (), st)
  | some (.list l) =>
    match ltrimCore l start stop with
    | none => (.ok (), storeDelete st key)
    | some l2 => (.ok (), storeSet st key (.list l2))
  | some _ => (.error wrongTypeMsg, st)

/-- Lookup in a Go `map[string]string`. -/
def hashLookup : List (String × String) → String → Option String
  | [], _ => none
  | (f, v) :: h, field => if f = field then some v else hashLookup h field

/-- `delete(hash, field)` on a `map[string]string`. -/
def hashDel (h : List (String × String)) (field : String) : List (String × String) :=
  h.filter (fun p => p.1 ≠ field)

/-- The field loop of `Storage.HDel`: delete each present field,
counting deletions. -/
def hdelLoop : List (String × String) → List String → Int × List (String × String)
  | h, [] => (0, h)
  | h, f :: fs =>
    if (hashLookup h f).isSome then
      let r := hdelLoop (hashDel h f) fs
      (r.1 + 1, r.2)
    else hdelLoop h fs

/-- `Storage.HDel`: count deleted fields and remove the key from the
main storage when the hash becomes empty. -/
def sHDel (st : Store) (key : String) (fields : List String) :
    Except String Int × Store :=
  match lookupStore st key with
  | none => (.ok 0, st)
  | some (.hash h) =>
    let r := hdelLoop h fields
    if r.2.length = 0 then (.ok r.1, storeDelete st key)
    else (.ok r.1, storeSet st key (.hash r.2))
  | some _ => (.error wrongTypeMsg, st)

/-- `Storage.HGet`: `("", nil)` for an absent key or field. -/
def sHGet (st : Store) (key field : String) : Except String String :=
  match lookupStore st key with
  | none => .ok ""
  | some (.hash h) =>
    match hashLookup h field with
    | some v => .ok v
    | none => .ok ""
  | some _ => .error wrongTypeMsg

/-- Membership in a Go `map[string]struct{}`. -/
def setHas (m : List String) (x : String) : Bool := m.contains x

/-- The member loop of `Storage.SRem`. -/
def sremLoop : List String → List String → Int × List String
  | m, [] => (0, m)
  | m, x :: xs =>
    if setHas m x then
      let r := sremLoop (m.filter (fun y => y ≠ x)) xs
      (r.1 + 1, r.2)
    else sremLoop m xs

/-- `Storage.SRem`: count removed members and remove the key when the
set becomes empty. -/
def sSRem (st : Store) (key : String) (members : List String) :
    Except String Int × Store :=
  match lookupStore st key with
  | none => (.ok 0, st)
  | some (.setv m) =>
    let r := sremLoop m members
    if r.2.length = 0 then (.ok r.1, storeDelete st key)
    else (.ok r.1, storeSet st key (.setv r.2))
  | some _ => (.error wrongTypeMsg, st)

/-- Lookup in a `map[string]ZSetMember` (the score of a member). -/
def zsetLookup : List (String × Int) → String → Option Int
  | [], _ => none
  | (m, s) :: z, member => if m = member then some s else zsetLookup z member

/-- The member loop of `Storage.ZRem`. -/
def zremLoop : List (String × Int) → List String → Int × List (String × Int)
  | z, [] => (0, z)
  | z, x :: xs =>
    if (zsetLookup z x).isSome then
      let r := zremLoop (z.filter (fun p => p.1 ≠ x)) xs
      (r.1 + 1, r.2)
    else zremLoop z xs

/-- `Storage.ZRem`: count removed members and remove the key when the
sorted set becomes empty. -/
def sZRem (st : Store) (key : String) (members : List String) :
    Except String Int × Store :=
  match lookupStore st key with
  | none => (.ok 0, st)
  | some (.zset z) =>
    let r := zremLoop z members
    if r.2.length = 0 then (.ok r.1, storeDelete st key)
    else (.ok r.1, storeSet st key (.zset r.2))
  | some _ => (.error wrongTypeMsg, st)

/-- `Storage.ZCard`. -/
def sZCard (st : Store) (key : String) : Except String Int :=
  match lookupStore st key with
  | none => .ok 0
  | some (.zset z) => .ok (z.length : Int)
  | some _ => .error wrongTypeMsg

/-! ## Command `Apply` methods needed by the claims (`command` package) -/

/-- A reply, or the propagation of a storage panic. -/
inductive ReplyRes where
  | reply (v : RespValue)
  | panicked

/-- `GetCommand.Apply`: `NewBulk("")` both for a missing key and for a
present value (so an empty stored string is indistinguishable from an
absent key on the wire). -/
def getApply (st : Store) (key : String) : ReplyRes :=
  match sGet st key with
  | .panicked => .panicked
  | .missing => .reply (.bulk "")
  | .found v => .reply (.bulk v)

/-- `IncrCommand.Apply`. -/
def incrApply (st : Store) (key : String) : ReplyRes × Store :=
  match sIncr st key with
  | (.ok n, st2) => (.reply (.int n), st2)
  | (.err m, st2) => (.reply (.errv m), st2)
  | (.panicked, st2) => (.panicked, st2)

/-- `DecrCommand.Apply`. -/
def decrApply (st : Store) (key : String) : ReplyRes × Store :=
  match sDecr st key with
  | (.ok n, st2) => (.reply (.int n), st2)
  | (.err m, st2) => (.reply (.errv m), st2)
  | (.panicked, st2) => (.panicked, st2)

/-- `HGetCommand.Apply`: an empty result string is replied as
`NewBulk("")`, exactly the reply for a missing field. -/
def hgetApply (st : Store) (key field : String) : RespValue :=
  match sHGet st key field with
  | .error msg => .errv msg
  | .ok v => if v = "" then .bulk "" else .bulk v

/-- `LPopCommand.Apply`: an empty popped string is replied as
`NewBulk("")`, exactly the reply for a missing key or empty list. -/
def lpopApply (st : Store) (key : String) : RespValue × Store :=
  match sLPop st key with
  | (.error msg, st2) => (.errv msg, st2)
  | (.ok v, st2) => (if v = "" then .bulk "" else .bulk v, st2)

/-- `RPopCommand.Apply`. -/
def rpopApply (st : Store) (key : String) : RespValue × Store :=
  match sRPop st key with
  | (.error msg, st2) => (.errv msg, st2)
  | (.ok v, st2) => (if v = "" then .bulk "" else .bulk v, st2)

/-- `LIndexCommand.Apply`. -/
def lindexApply (st : Store) (key : String) (index : Int) : RespValue :=
  match sLIndex st key index with
  | .error msg => .errv msg
  | .ok v => if v = "" then .bulk "" else .bulk v

/-! ## LRANGE / LTRIM duality -/

theorem clampStart_nonneg (n a : Int) : 0 ≤ clampStart n a := by
  simp only [clampStart]
  split_ifs <;> omega

theorem clampStop_le (n b : Int) : clampStop n b ≤ n - 1 := by
  simp only [clampStop]
  split_ifs <;> omega

theorem clampStart_zero (n : Int) : clampStart n 0 = 0 := by
  simp only [clampStart]
  split_ifs <;> omega

theorem clampStop_neg_one (n : Int) : clampStop n (-1) = n - 1 := by
  simp only [clampStop]
  split_ifs <;> omega

/-- `LRANGE k 0 -1` returns the whole stored list. -/
theorem lrangeList_full (l : List String) : lrangeList l 0 (-1) = l := by
  unfold lrangeList
  rw [clampStart_zero, clampStop_neg_one]
  by_cases hl : (l.length : Int) = 0
  · rw [if_pos (Or.inr hl)]
    have : l = [] := List.length_eq_zero.mp (by exact_mod_cast hl)
    rw [this]
  · rw [if_neg (by omega)]
    simp only [Int.toNat_zero, List.drop_zero]
    have h2 : ((l.length : Int) - 1 - 0 + 1).toNat = l.length := by omega
    rw [h2, List.take_length]

/-- List-level duality: trimming then ranging over everything gives the
pre-trim range (and the trim deletes exactly when the range is empty). -/
theorem ltrim_lrange_list (l : List String) (a b : Int) :
    (match ltrimCore l a b with
     | none => []
     | some l2 => lrangeList l2 0 (-1)) = lrangeList l a b := by
  by_cases hc : clampStart (l.length : Int) a > clampStop (l.length : Int) b ∨
      (l.length : Int) = 0 ∨ clampStart (l.length : Int) a ≥ (l.length : Int)
  · have ht : ltrimCore l a b = none := by
      unfold ltrimCore
      rw [if_pos hc]
    have hcr : clampStart (l.length : Int) a > clampStop (l.length : Int) b ∨
        (l.length : Int) = 0 := by
      have h1 := clampStop_le (l.length : Int) b
      rcases hc with h | h | h
      · exact Or.inl h
      · exact Or.inr h
      · exact Or.inl (by omega)
    have hr : lrangeList l a b = [] := by
      unfold lrangeList
      rw [if_pos hcr]
    rw [ht, hr]
  · have hcr : ¬ (clampStart (l.length : Int) a > clampStop (l.length : Int) b ∨
        (l.length : Int) = 0) := by
      intro h
      rcases h with h | h
      · exact hc (Or.inl h)
      · exact hc (Or.inr (Or.inl h))
    have ht : ltrimCore l a b = some ((l.drop (clampStart (l.length : Int) a).toNat).take
        (clampStop (l.length : Int) b - clampStart (l.length : Int) a + 1).toNat) := by
      unfold ltrimCore
      rw [if_neg hc]
    have hr : lrangeList l a b = (l.drop (clampStart (l.length : Int) a).toNat).take
        (clampStop (l.length : Int) b - clampStart (l.length : Int) a + 1).toNat := by
      unfold lrangeList
      rw [if_neg hcr]
    rw [ht, hr]
    exact lrangeList_full _

/-! ## Command parsing and validation (`command` package) -/

/-- A validated, ready-to-execute command (the `Command` implementations
of the `command` package, with their parsed fields).  Scores and other
float arguments are modelled as `Int` (see the header). -/
inductive Command where
  | ping (msg : String)
  | set (k v : String)
  | get (k : String)
  | del (keys : List String)
  | existsKeys (keys : List String)
  | incr (k : String)
  | decr (k : String)
  | lpush (k : String) (vs : List String)
  | rpush (k : String) (vs : List String)
  | lpop (k : String)
  | rpop (k : String)
  | llen (k : String)
  | lindex (k : String) (i : Int)
  | lset (k : String) (i : Int) (v : String)
  | lrem (k : String) (count : Int) (v : String)
  | lpushx (k : String) (vs : List String)
  | rpushx (k : String) (vs : List String)
  | linsert (k pos pivot v : String)
  | lrange (k : String) (a b : Int)
  | ltrim (k : String) (a b : Int)
  | hset (k f v : String)
  | hget (k f : String)
  | hdel (k : String) (fs : List String)
  | hexists (k f : String)
  | hlen (k : String)
  | hgetall (k : String)
  | sadd (k : String) (ms : List String)
  | srem (k : String) (ms : List String)
  | sismember (k m : String)
  | scard (k : String)
  | smembers (k : String)
  | spop (k : String) (count : Int)
  | srandmember (k : String) (count : Int)
  | sinter (keys : List String)
  | sunion (keys : List String)
  | sdiff (keys : List String)
  | zadd (k : String) (ms : List (Int × String))
  | zscore (k m : String)
  | zrem (k : String) (ms : List String)
  | zcard (k : String)
  | zrange (k : String) (a b : Int) (ws : Bool)
  | zrangebyscore (k : String) (mn mx : Int) (off cnt : Int) (ws : Bool)
  | zcount (k : String) (mn mx : Int)
  | zincrby (k : String) (inc : Int) (m : String)
  | zrank (k m : String)
  | zrevrank (k m : String)
  | zrevrangebyscore (k : String) (mx mn : Int) (off cnt : Int) (ws : Bool)
  | zrevrange (k : String) (a b : Int) (ws : Bool)

/-- The `Str` field of `resp.RespValue` (empty for the constructors that
do not set it). -/
def rvStr : RespValue → String
  | .simple s => s
  | .errv s => s
  | .bulk s => s
  | .int _ => ""
  | .array _ => ""

/-- `arg.Type == resp.Bulk`. -/
def isBulk : RespValue → Bool
  | .bulk _ => true
  | _ => false

/-- `strings.ToUpper` on the ASCII command names and keywords used here. -/
def goToUpper (s : String) : String := String.mk (s.data.map Char.toUpper)

/-- `NewPingCommand`. -/
def NewPingCommand (args : List RespValue) : Except String Command :=
  match args with
  | [] => .ok (.ping "PONG")
  | [a] =>
    if isBulk a then .ok (.ping (rvStr a))
    else .error "ERR PING argument must be a bulk string"
  | _ => .error "ERR wrong number of arguments for 'ping' command"

/-- `NewSetCommand`. -/
def NewSetCommand (args : List RespValue) : Except String Command :=
  match args with
  | [a, b] =>
    if !isBulk a || !isBulk b then .error "ERR SET arguments must be bulk strings"
    else .ok (.set (rvStr a) (rvStr b))
  | _ => .error "ERR wrong number of arguments for 'set' command"

/-- `NewGetCommand`. -/
def NewGetCommand (args : List RespValue) : Except String Command :=
  match args with
  | [a] =>
    if isBulk a then .ok (.get (rvStr a))
    else .error "ERR GET argument must be a bulk string"
  | _ => .error "ERR wrong number of arguments for 'get' command"

/-- `NewDelCommand`. -/
def NewDelCommand (args : List RespValue) : Except String Command :=
  match args with
  | [] => .error "ERR wrong number of arguments for 'del' command"
  | _ =>
    if args.all isBulk then .ok (.del (args.map rvStr))
    else .error "ERR DEL arguments must be bulk strings"

/-- `NewExistsCommand`. -/
def NewExistsCommand (args : List RespValue) : Except String Command :=
  match args with
  | [] => .error "ERR wrong number of arguments for 'exists' command"
  | _ =>
    if args.all isBulk then .ok (.existsKeys (args.map rvStr))
    else .error "ERR EXISTS arguments must be bulk strings"

/-- `NewIncrCommand`. -/
def NewIncrCommand (args : List RespValue) : Except String Command :=
  match args with
  | [a] =>
    if isBulk a then .ok (.incr (rvStr a))
    else .error "ERR INCR argument must be a bulk string"
  | _ => .error "ERR wrong number of arguments for 'incr' command"

/-- `NewDecrCommand`. -/
def NewDecrCommand (args : List RespValue) : Except String Command :=
  match args with
  | [a] =>
    if isBulk a then .ok (.decr (rvStr a))
    else .error "ERR DECR argument must be a bulk string"
  | _ => .error "ERR wrong number of arguments for 'decr' command"

/-- `NewLPushCommand`: at least key and one value; the key is used via
`.Str` without a type check, the values must be bulk. -/
def NewLPushCommand (args : List RespValue) : Except String Command :=
  match args with
  | key :: v :: vs =>
    if (v :: vs).all isBulk then .ok (.lpush (rvStr key) ((v :: vs).map rvStr))
    else .error "ERR LPUSH arguments must be bulk strings"
  | _ => .error "ERR wrong number of arguments for 'lpush' command"

/-- `NewRPushCommand`. -/
def NewRPushCommand (args : List RespValue) : Except String Command :=
  match args with
  | key :: v :: vs =>
    if (v :: vs).all isBulk then .ok (.rpush (rvStr key) ((v :: vs).map rvStr))
    else .error "ERR RPUSH arguments must be bulk strings"
  | _ => .error "ERR wrong number of arguments for 'rpush' command"

/-- `NewLPopCommand`. -/
def NewLPopCommand (args : List RespValue) : Except String Command :=
  match args with
  | [a] =>
    if isBulk a then .ok (.lpop (rvStr a))
    else .error "ERR LPOP argument must be a bulk string"
  | _ => .error "ERR wrong number of arguments for 'lpop' command"

/-- `NewRPopCommand`. -/
def NewRPopCommand (args : List RespValue) : Except String Command :=
  match args with
  | [a] =>
    if isBulk a then .ok (.rpop (rvStr a))
    else .error "ERR RPOP argument must be a bulk string"
  | _ => .error "ERR wrong number of arguments for 'rpop' command"

/-- `NewLLenCommand`. -/
def NewLLenCommand (args : List RespValue) : Except String Command :=
  match args with
  | [a] =>
    if isBulk a then .ok (.llen (rvStr a))
    else .error "ERR LLEN argument must be a bulk string"
  | _ => .error "ERR wrong number of arguments for 'llen' command"

/-- `NewLIndexCommand`. -/
def NewLIndexCommand (args : List RespValue) : Except String Command :=
  match args with
  | [a, b] =>
    if !isBulk a || !isBulk b then .error "ERR LINDEX arguments must be bulk strings"
    else
      match parseInt64 (rvStr b) with
      | none => .error "ERR value is not an integer or out of range"
      | some i => .ok (.lindex (rvStr a) i)
  | _ => .error "ERR wrong number of arguments for 'lindex' command"

/-- `NewLSetCommand`. -/
def NewLSetCommand (args : List RespValue) : Except String Command :=
  match args with
  | [a, b, c] =>
    if !isBulk a || !isBulk b || !isBulk c then
      .error "ERR LSET arguments must be bulk strings"
    else
      match parseInt64 (rvStr b) with
      | none => .error "ERR value is not an integer or out of range"
      | some i => .ok (.lset (rvStr a) i (rvStr c))
  | _ => .error "ERR wrong number of arguments for 'lset' command"

/-- `NewLRemCommand`. -/
def NewLRemCommand (args : List RespValue) : Except String Command :=
  match args with
  | [a, b, c] =>
    if !isBulk a || !isBulk b || !isBulk c then
      .error "ERR LREM arguments must be bulk strings"
    else
      match parseInt64 (rvStr b) with
      | none => .error "ERR value is not an integer or out of range"
      | some i => .ok (.lrem (rvStr a) i (rvStr c))
  | _ => .error "ERR wrong number of arguments for 'lrem' command"

/-- `NewLPushXCommand`. -/
def NewLPushXCommand (args : List RespValue) : Except String Command :=
  match args with
  | key :: v :: vs =>
    if (v :: vs).all isBulk then .ok (.lpushx (rvStr key) ((v :: vs).map rvStr))
    else .error "ERR LPUSHX arguments must be bulk strings"
  | _ => .error "ERR wrong number of arguments for 'lpushx' command"

/-- `NewRPushXCommand`. -/
def NewRPushXCommand (args : List RespValue) : Except String Command :=
  match args with
  | key :: v :: vs =>
    if (v :: vs).all isBulk then .ok (.rpushx (rvStr key) ((v :: vs).map rvStr))
    else .error "ERR RPUSHX arguments must be bulk strings"
  | _ => .error "ERR wrong number of arguments for 'rpushx' command"

/-- `NewLInsertCommand`: the position keyword is uppercased and must be
`BEFORE` or `AFTER`. -/
def NewLInsertCommand (args : List RespValue) : Except String Command :=
  match args with
  | [a, b, c, d] =>
    if !isBulk a || !isBulk b || !isBulk c || !isBulk d then
      .error "ERR LINSERT arguments must be bulk strings"
    else
      if goToUpper (rvStr b) = "BEFORE" ∨ goToUpper (rvStr b) = "AFTER" then
        .ok (.linsert (rvStr a) (goToUpper (rvStr b)) (rvStr c) (rvStr d))
      else .error "ERR syntax error"
  | _ => .error "ERR wrong number of arguments for 'linsert' command"

/-- `NewLRangeCommand`. -/
def NewLRangeCommand (args : List RespValue) : Except String Command :=
  match args with
  | [a, b, c] =>
    if !isBulk a || !isBulk b || !isBulk c then
      .error "ERR LRANGE arguments must be bulk strings"
    else
      match parseInt64 (rvStr b) with
      | none => .error "ERR value is not an integer or out of range"
      | some s1 =>
        match parseInt64 (rvStr c) with
        | none => .error "ERR value is not an integer or out of range"
        | some s2 => .ok (.lrange (rvStr a) s1 s2)
  | _ => .error "ERR wrong number of arguments for 'lrange' command"

/-- `NewLTrimCommand`. -/
def NewLTrimCommand (args : List RespValue) : Except String Command :=
  match args with
  | [a, b, c] =>
    if !isBulk a || !isBulk b || !isBulk c then
      .error "ERR LTRIM arguments must be bulk strings"
    else
      match parseInt64 (rvStr b) with
      | none => .error "ERR value is not an integer or out of range"
      | some s1 =>
        match parseInt64 (rvStr c) with
        | none => .error "ERR value is not an integer or out of range"
        | some s2 => .ok (.ltrim (rvStr a) s1 s2)
  | _ => .error "ERR wrong number of arguments for 'ltrim' command"

/-- `NewHSetCommand`. -/
def NewHSetCommand (args : List RespValue) : Except String Command :=
  match args with
  | [a, b, c] =>
    if !isBulk a || !isBulk b || !isBulk c then
      .error "ERR HSET arguments must be bulk strings"
    else .ok (.hset (rvStr a) (rvStr b) (rvStr c))
  | _ => .error "ERR wrong number of arguments for 'hset' command"

/-- `NewHGetCommand`. -/
def NewHGetCommand (args : List RespValue) : Except String Command :=
  match args with
  | [a, b] =>
    if !isBulk a || !isBulk b then .error "ERR HGET arguments must be bulk strings"
    else .ok (.hget (rvStr a) (rvStr b))
  | _ => .error "ERR wrong number of arguments for 'hget' command"

/-- `NewHDelCommand`. -/
def NewHDelCommand (args : List RespValue) : Except String Command :=
  match args with
  | key :: f :: fs =>
    if (f :: fs).all isBulk then .ok (.hdel (rvStr key) ((f :: fs).map rvStr))
    else .error "ERR HDEL arguments must be bulk strings"
  | _ => .error "ERR wrong number of arguments for 'hdel' command"

/-- `NewHExistsCommand`. -/
def NewHExistsCommand (args : List RespValue) : Except String Command :=
  match args with
  | [a, b] =>
    if !isBulk a || !isBulk b then .error "ERR HEXISTS arguments must be bulk strings"
    else .ok (.hexists (rvStr a) (rvStr b))
  | _ => .error "ERR wrong number of arguments for 'hexists' command"

/-- `NewHLenCommand`. -/
def NewHLenCommand (args : List RespValue) : Except String Command :=
  match args with
  | [a] =>
    if isBulk a then .ok (.hlen (rvStr a))
    else .error "ERR HLEN argument must be a bulk string"
  | _ => .error "ERR wrong number of arguments for 'hlen' command"

/-- `NewHGetAllCommand`. -/
def NewHGetAllCommand (args : List RespValue) : Except String Command :=
  match args with
  | [a] =>
    if isBulk a then .ok (.hgetall (rvStr a))
    else .error "ERR HGETALL argument must be a bulk string"
  | _ => .error "ERR wrong number of arguments for 'hgetall' command"

/-- `NewSAddCommand`. -/
def NewSAddCommand (args : List RespValue) : Except String Command :=
  match args with
  | key :: m :: ms =>
    if (m :: ms).all isBulk then .ok (.sadd (rvStr key) ((m :: ms).map rvStr))
    else .error "ERR SADD arguments must be bulk strings"
  | _ => .error "ERR wrong number of arguments for 'sadd' command"

/-- `NewSRemCommand`. -/
def NewSRemCommand (args : List RespValue) : Except String Command :=
  match args with
  | key :: m :: ms =>
    if (m :: ms).all isBulk then .ok (.srem (rvStr key) ((m :: ms).map rvStr))
    else .error "ERR SREM arguments must be bulk strings"
  | _ => .error "ERR wrong number of arguments for 'srem' command"

/-- `NewSIsMemberCommand`. -/
def NewSIsMemberCommand (args : List RespValue) : Except String Command :=
  match args with
  | [a, b] =>
    if !isBulk a || !isBulk b then .error "ERR SISMEMBER arguments must be bulk strings"
    else .ok (.sismember (rvStr a) (rvStr b))
  | _ => .error "ERR wrong number of arguments for 'sismember' command"

/-- `NewSCardCommand`. -/
def NewSCardCommand (args : List RespValue) : Except String Command :=
  match args with
  | [a] =>
    if isBulk a then .ok (.scard (rvStr a))
    else .error "ERR SCARD argument must be a bulk string"
  | _ => .error "ERR wrong number of arguments for 'scard' command"

/-- `NewSMembersCommand`. -/
def NewSMembersCommand (args : List RespValue) : Except String Command :=
  match args with
  | [a] =>
    if isBulk a then .ok (.smembers (rvStr a))
    else .error "ERR SMEMBERS argument must be a bulk string"
  | _ => .error "ERR wrong number of arguments for 'smembers' command"

/-- `NewSPopCommand`: the count defaults to 1. -/
def NewSPopCommand (args : List RespValue) : Except String Command :=
  match args with
  | [a] =>
    if isBulk a then .ok (.spop (rvStr a) 1)
    else .error "ERR SPOP argument must be a bulk string"
  | [a, b] =>
    if !isBulk a then .error "ERR SPOP argument must be a bulk string"
    else if !isBulk b then .error "ERR SPOP count argument must be an integer"
    else
      match parseInt64 (rvStr b) with
      | none => .error "ERR value is not an integer or out of range"
      | some c => .ok (.spop (rvStr a) c)
  | _ => .error "ERR wrong number of arguments for 'spop' command"

/-- `NewSRandMemberCommand`. -/
def NewSRandMemberCommand (args : List RespValue) : Except String Command :=
  match args with
  | [a] =>
    if isBulk a then .ok (.srandmember (rvStr a) 1)
    else .error "ERR SRANDMEMBER argument must be a bulk string"
  | [a, b] =>
    if !isBulk a then .error "ERR SRANDMEMBER argument must be a bulk string"
    else if !isBulk b then .error "ERR SRANDMEMBER count argument must be an integer"
    else
      match parseInt64 (rvStr b) with
      | none => .error "ERR value is not an integer or out of range"
      | some c => .ok (.srandmember (rvStr a) c)
  | _ => .error "ERR wrong number of arguments for 'srandmember' command"

/-- `NewSInterCommand`. -/
def NewSInterCommand (args : List RespValue) : Except String Command :=
  match args with
  | [] => .error "ERR wrong number of arguments for 'sinter' command"
  | _ =>
    if args.all isBulk then .ok (.sinter (args.map rvStr))
    else .error "ERR SINTER arguments must be bulk strings"

/-- `NewSUnionCommand`. -/
def NewSUnionCommand (args : List RespValue) : Except String Command :=
  match args with
  | [] => .error "ERR wrong number of arguments for 'sunion' command"
  | _ =>
    if args.all isBulk then .ok (.sunion (args.map rvStr))
    else .error "ERR SUNION arguments must be bulk strings"

/-- `NewSDiffCommand`. -/
def NewSDiffCommand (args : List RespValue) : Except String Command :=
  match args with
  | [] => .error "ERR wrong number of arguments for 'sdiff' command"
  | _ =>
    if args.all isBulk then .ok (.sdiff (args.map rvStr))
    else .error "ERR SDIFF arguments must be bulk strings"

/-- The score/member pair loop of `NewZAddCommand` (`pf` models
`strconv.ParseFloat`). -/
def parseScorePairs (pf : String → Option Int) : List RespValue →
    Except String (List (Int × String))
  | [] => .ok []
  | a :: b :: rest =>
    if !isBulk a || !isBulk b then .error "ERR ZADD arguments must be bulk strings"
    else
      match pf (rvStr a) with
      | none => .error "ERR value is not a valid float"
      | some score =>
        match parseScorePairs pf rest with
        | .error e => .error e
        | .ok ms => .ok ((score, rvStr b) :: ms)
  | [_] => .error "ERR wrong number of arguments for 'zadd' command"

/-- `NewZAddCommand`. -/
def NewZAddCommand (pf : String → Option Int) (args : List RespValue) :
    Except String Command :=
  if args.length < 3 || args.length % 2 = 0 then
    .error "ERR wrong number of arguments for 'zadd' command"
  else
    match args with
    | key :: rest =>
      match parseScorePairs pf rest with
      | .error e => .error e
      | .ok ms => .ok (.zadd (rvStr key) ms)
    | [] => .error "ERR wrong number of arguments for 'zadd' command"

/-- `NewZScoreCommand`. -/
def NewZScoreCommand (args : List RespValue) : Except String Command :=
  match args with
  | [a, b] =>
    if !isBulk a || !isBulk b then .error "ERR ZSCORE arguments must be bulk strings"
    else .ok (.zscore (rvStr a) (rvStr b))
  | _ => .error "ERR wrong number of arguments for 'zscore' command"

/-- `NewZRemCommand`. -/
def NewZRemCommand (args : List RespValue) : Except String Command :=
  match args with
  | key :: m :: ms =>
    if (m :: ms).all isBulk then .ok (.zrem (rvStr key) ((m :: ms).map rvStr))
    else .error "ERR ZREM arguments must be bulk strings"
  | _ => .error "ERR wrong number of arguments for 'zrem' command"

/-- `NewZCardCommand`. -/
def NewZCardCommand (args : List RespValue) : Except String Command :=
  match args with
  | [a] =>
    if isBulk a then .ok (.zcard (rvStr a))
    else .error "ERR ZCARD argument must be a bulk string"
  | _ => .error "ERR wrong number of arguments for 'zcard' command"

/-- `NewZRangeCommand`: three bulk arguments plus an optional
`WITHSCORES`. -/
def NewZRangeCommand (args : List RespValue) : Except String Command :=
  match args with
  | [a, b, c] =>
    if !isBulk a || !isBulk b || !isBulk c then
      .error "ERR ZRANGE arguments must be bulk strings"
    else
      match parseInt64 (rvStr b) with
      | none => .error "ERR value is not an integer or out of range"
      | some s1 =>
        match parseInt64 (rvStr c) with
        | none => .error "ERR value is not an integer or out of range"
        | some s2 => .ok (.zrange (rvStr a) s1 s2 false)
  | [a, b, c, d] =>
    if !isBulk a || !isBulk b || !isBulk c then
      .error "ERR ZRANGE arguments must be bulk strings"
    else
      match parseInt64 (rvStr b) with
      | none => .error "ERR value is not an integer or out of range"
      | some s1 =>
        match parseInt64 (rvStr c) with
        | none => .error "ERR value is not an integer or out of range"
        | some s2 =>
          if goToUpper (rvStr d) = "WITHSCORES" then .ok (.zrange (rvStr a) s1 s2 true)
          else .error "ERR syntax error"
  | _ => .error "ERR wrong number of arguments for 'zrange' command"

/-- `NewZRevRangeCommand`. -/
def NewZRevRangeCommand (args : List RespValue) : Except String Command :=
  match args with
  | [a, b, c] =>
    if !isBulk a || !isBulk b || !isBulk c then
      .error "ERR ZREVRANGE arguments must be bulk strings"
    else
      match parseInt64 (rvStr b) with
      | none => .error "ERR value is not an integer or out of range"
      | some s1 =>
        match parseInt64 (rvStr c) with
        | none => .error "ERR value is not an integer or out of range"
        | some s2 => .ok (.zrevrange (rvStr a) s1 s2 false)
  | [a, b, c, d] =>
    if !isBulk a || !isBulk b || !isBulk c then
      .error "ERR ZREVRANGE arguments must be bulk strings"
    else
      match parseInt64 (rvStr b) with
      | none => .error "ERR value is not an integer or out of range"
      | some s1 =>
        match parseInt64 (rvStr c) with
        | none => .error "ERR value is not an integer or out of range"
        | some s2 =>
          if goToUpper (rvStr d) = "WITHSCORES" then .ok (.zrevrange (rvStr a) s1 s2 true)
          else .error "ERR syntax error"
  | _ => .error "ERR wrong number of arguments for 'zrevrange' command"

/-- The `WITHSCORES` / `LIMIT offset count` option loop shared by
`NewZRangeByScoreCommand` and `NewZRevRangeByScoreCommand`. -/
def parseRangeOpts : List RespValue → Int → Int → Bool →
    Except String (Int × Int × Bool)
  | [], off, cnt, ws => .ok (off, cnt, ws)
  | a :: rest, off, cnt, ws =>
    if goToUpper (rvStr a) = "WITHSCORES" then parseRangeOpts rest off cnt true
    else if goToUpper (rvStr a) = "LIMIT" then
      match rest with
      | o :: c :: rest2 =>
        match parseInt64 (rvStr o) with
        | none => .error "ERR offset is not an integer or out of range"
        | some off2 =>
          match parseInt64 (rvStr c) with
          | none => .error "ERR count is not an integer or out of range"
          | some cnt2 => parseRangeOpts rest2 off2 cnt2 ws
      | _ => .error "ERR syntax error"
    else .error "ERR syntax error"

/-- `NewZRangeByScoreCommand`: min first; no bulk checks are performed
by the source. -/
def NewZRangeByScoreCommand (pf : String → Option Int) (args : List RespValue) :
    Except String Command :=
  match args with
  | key :: mn :: mx :: rest =>
    match pf (rvStr mn) with
    | none => .error "ERR min is not a valid float"
    | some mnv =>
      match pf (rvStr mx) with
      | none => .error "ERR max is not a valid float"
      | some mxv =>
        match parseRangeOpts rest 0 (-1) false with
        | .error e => .error e
        | .ok (off, cnt, ws) => .ok (.zrangebyscore (rvStr key) mnv mxv off cnt ws)
  | _ => .error "ERR wrong number of arguments for 'zrangebyscore' command"

/-- `NewZRevRangeByScoreCommand`: max first. -/
def NewZRevRangeByScoreCommand (pf : String → Option Int) (args : List RespValue) :
    Except String Command :=
  match args with
  | key :: mx :: mn :: rest =>
    match pf (rvStr mx) with
    | none => .error "ERR max is not a valid float"
    | some mxv =>
      match pf (rvStr mn) with
      | none => .error "ERR min is not a valid float"
      | some mnv =>
        match parseRangeOpts rest 0 (-1) false with
        | .error e => .error e
        | .ok (off, cnt, ws) => .ok (.zrevrangebyscore (rvStr key) mxv mnv off cnt ws)
  | _ => .error "ERR wrong number of arguments for 'zrevrangebyscore' command"

/-- `NewZCountCommand`. -/
def NewZCountCommand (pf : String → Option Int) (args : List RespValue) :
    Except String Command :=
  match args with
  | [a, b, c] =>
    if !isBulk a || !isBulk b || !isBulk c then
      .error "ERR ZCOUNT arguments must be bulk strings"
    else
      match pf (rvStr b) with
      | none => .error "ERR min is not a valid float"
      | some mnv =>
        match pf (rvStr c) with
        | none => .error "ERR max is not a valid float"
        | some mxv => .ok (.zcount (rvStr a) mnv mxv)
  | _ => .error "ERR wrong number of arguments for 'zcount' command"

/-- `NewZIncrByCommand`. -/
def NewZIncrByCommand (pf : String → Option Int) (args : List RespValue) :
    Except String Command :=
  match args with
  | [a, b, c] =>
    if !isBulk a || !isBulk b || !isBulk c then
      .error "ERR ZINCRBY arguments must be bulk strings"
    else
      match pf (rvStr b) with
      | none => .error "ERR value is not a valid float"
      | some inc => .ok (.zincrby (rvStr a) inc (rvStr c))
  | _ => .error "ERR wrong number of arguments for 'zincrby' command"

/-- `NewZRankCommand`. -/
def NewZRankCommand (args : List RespValue) : Except String Command :=
  match args with
  | [a, b] =>
    if !isBulk a || !isBulk b then .error "ERR ZRANK arguments must be bulk strings"
    else .ok (.zrank (rvStr a) (rvStr b))
  | _ => .error "ERR wrong number of arguments for 'zrank' command"

/-- `NewZRevRankCommand`. -/
def NewZRevRankCommand (args : List RespValue) : Except String Command :=
  match args with
  | [a, b] =>
    if !isBulk a || !isBulk b then .error "ERR ZREVRANK arguments must be bulk strings"
    else .ok (.zrevrank (rvStr a) (rvStr b))
  | _ => .error "ERR wrong number of arguments for 'zrevrank' command"

/-- The command registry built by `NewCommandRegistry` (all names are
registered uppercase). -/
def registryFind (pf : String → Option Int) (name : String) :
    Option (List RespValue → Except String Command) :=
  match name with
  | "PING" => some NewPingCommand
  | "SET" => some NewSetCommand
  | "GET" => some NewGetCommand
  | "DEL" => some NewDelCommand
  | "EXISTS" => some NewExistsCommand
  | "INCR" => some NewIncrCommand
  | "DECR" => some NewDecrCommand
  | "LPUSH" => some NewLPushCommand
  | "RPUSH" => some NewRPushCommand
  | "LPOP" => some NewLPopCommand
  | "RPOP" => some NewRPopCommand
  | "LLEN" => some NewLLenCommand
  | "LINDEX" => some NewLIndexCommand
  | "LSET" => some NewLSetCommand
  | "LREM" => some NewLRemCommand
  | "LPUSHX" => some NewLPushXCommand
  | "RPUSHX" => some NewRPushXCommand
  | "LINSERT" => some NewLInsertCommand
  | "LRANGE" => some NewLRangeCommand
  | "LTRIM" => some NewLTrimCommand
  | "HSET" => some NewHSetCommand
  | "HGET" => some NewHGetCommand
  | "HDEL" => some NewHDelCommand
  | "HEXISTS" => some NewHExistsCommand
  | "HLEN" => some NewHLenCommand
  | "HGETALL" => some NewHGetAllCommand
  | "SADD" => some NewSAddCommand
  | "SREM" => some NewSRemCommand
  | "SISMEMBER" => some NewSIsMemberCommand
  | "SCARD" => some NewSCardCommand
  | "SMEMBERS" => some NewSMembersCommand
  | "SPOP" => some NewSPopCommand
  | "SRANDMEMBER" => some NewSRandMemberCommand
  | "SINTER" => some NewSInterCommand
  | "SUNION" => some NewSUnionCommand
  | "SDIFF" => some NewSDiffCommand
  | "ZADD" => some (NewZAddCommand pf)
  | "ZSCORE" => some NewZScoreCommand
  | "ZREM" => some NewZRemCommand
  | "ZCARD" => some NewZCardCommand
  | "ZRANGE" => some NewZRangeCommand
  | "ZRANGEBYSCORE" => some (NewZRangeByScoreCommand pf)
  | "ZCOUNT" => some (NewZCountCommand pf)
  | "ZINCRBY" => some (NewZIncrByCommand pf)
  | "ZRANK" => some NewZRankCommand
  | "ZREVRANK" => some NewZRevRankCommand
  | "ZREVRANGEBYSCORE" => some (NewZRevRangeByScoreCommand pf)
  | "ZREVRANGE" => some NewZRevRangeCommand
  | _ => none

/-- `CommandRegistry.ParseCommand`: require a non-empty array, uppercase
the first element's `Str` as the command name, look it up, and run the
validator on the remaining elements. -/
def parseCommand (pf : String → Option Int) (v : RespValue) : Except String Command :=
  match v with
  | .array (first :: rest) =>
    match registryFind pf (goToUpper (rvStr first)) with
    | none => .error ("ERR unknown command '" ++ goToUpper (rvStr first) ++ "'")
    | some ctor => ctor rest
  | _ => .error "ERR invalid command format"

/-- The per-request body of `network.handleConnection` after a value has
been read: parse, on failure reply `NewError(err.Error())` and keep the
connection open (`continue`); on success execute and reply.  Execution
is a parameter (`applyFn`); the final `Bool` is true when the loop
continues with the connection open. -/
def handleRequest (applyFn : Command → Store → RespValue × Store)
    (pf : String → Option Int) (st : Store) (v : RespValue) :
    RespValue × Store × Bool :=
  match parseCommand pf v with
  | .error e => (.errv e, st, true)
  | .ok cmd =>
    let r := applyFn cmd st
    (r.1, r.2, true)

/-! ## Every parse/validation error message carries the ERR tag -/

/-- The reply message starts with the three characters `ERR`. -/
abbrev errTagged (e : String) : Prop := ∃ t, e.data = 'E' :: 'R' :: 'R' :: t

theorem errE_NewPingCommand : ∀ args e, NewPingCommand args = .error e → errTagged e := by
  intro args e h
  unfold NewPingCommand at h
  repeat' split at h
  all_goals first
    | exact Except.noConfusion h
    | (injection h with h2; subst h2; exact ⟨_, rfl⟩)

theorem errE_NewSetCommand : ∀ args e, NewSetCommand args = .error e → errTagged e := by
  intro args e h
  unfold NewSetCommand at h
  repeat' split at h
  all_goals first
    | exact Except.noConfusion h
    | (injection h with h2; subst h2; exact ⟨_, rfl⟩)

theorem errE_NewGetCommand : ∀ args e, NewGetCommand args = .error e → errTagged e := by
  intro args e h
  unfold NewGetCommand at h
  repeat' split at h
  all_goals first
    | exact Except.noConfusion h
    | (injection h with h2; subst h2; exact ⟨_, rfl⟩)

theorem errE_NewDelCommand : ∀ args e, NewDelCommand args = .error e → errTagged e := by
  intro args e h
  unfold NewDelCommand at h
  repeat' split at h
  all_goals first
    | exact Except.noConfusion h
    | (injection h with h2; subst h2; exact ⟨_, rfl⟩)

theorem errE_NewExistsCommand : ∀ args e, NewExistsCommand args = .error e → errTagged e := by
  intro args e h
  unfold NewExistsCommand at h
  repeat' split at h
  all_goals first
    | exact Except.noConfusion h
    | (injection h with h2; subst h2; exact ⟨_, rfl⟩)

theorem errE_NewIncrCommand : ∀ args e, NewIncrCommand args = .error e → errTagged e := by
  intro args e h
  unfold NewIncrCommand at h
  repeat' split at h
  all_goals first
    | exact Except.noConfusion h
    | (injection h with h2; subst h2; exact ⟨_, rfl⟩)

theorem errE_NewDecrCommand : ∀ args e, NewDecrCommand args = .error e → errTagged e := by
  intro args e h
  unfold NewDecrCommand at h
  repeat' split at h
  all_goals first
    | exact Except.noConfusion h
    | (injection h with h2; subst h2; exact ⟨_, rfl⟩)

theorem errE_NewLPushCommand : ∀ args e, NewLPushCommand args = .error e → errTagged e := by
  intro args e h
  unfold NewLPushCommand at h
  repeat' split at h
  all_goals first
    | exact Except.noConfusion h
    | (injection h with h2; subst h2; exact ⟨_, rfl⟩)

theorem errE_NewRPushCommand : ∀ args e, NewRPushCommand args = .error e → errTagged e := by
  intro args e h
  unfold NewRPushCommand at h
  repeat' split at h
  all_goals first
    | exact Except.noConfusion h
    | (injection h with h2; subst h2; exact ⟨_, rfl⟩)

theorem errE_NewLPopCommand : ∀ args e, NewLPopCommand args = .error e → errTagged e := by
  intro args e h
  unfold NewLPopCommand at h
  repeat' split at h
  all_goals first
    | exact Except.noConfusion h
    | (injection h with h2; subst h2; exact ⟨_, rfl⟩)

theorem errE_NewRPopCommand : ∀ args e, NewRPopCommand args = .error e → errTagged e := by
  intro args e h
  unfold NewRPopCommand at h
  repeat' split at h
  all_goals first
    | exact Except.noConfusion h
    | (injection h with h2; subst h2; exact ⟨_, rfl⟩)

theorem errE_NewLLenCommand : ∀ args e, NewLLenCommand args = .error e → errTagged e := by
  intro args e h
  unfold NewLLenCommand at h
  repeat' split at h
  all_goals first
    | exact Except.noConfusion h
    | (injection h with h2; subst h2; exact ⟨_, rfl⟩)

theorem errE_NewLIndexCommand : ∀ args e, NewLIndexCommand args = .error e → errTagged e := by
  intro args e h
  unfold NewLIndexCommand at h
  repeat' split at h
  all_goals first
    | exact Except.noConfusion h
    | (injection h with h2; subst h2; exact ⟨_, rfl⟩)

theorem errE_NewLSetCommand : ∀ args e, NewLSetCommand args = .error e → errTagged e := by
  intro args e h
  unfold NewLSetCommand at h
  repeat' split at h
  all_goals first
    | exact Except.noConfusion h
    | (injection h with h2; subst h2; exact ⟨_, rfl⟩)

theorem errE_NewLRemCommand : ∀ args e, NewLRemCommand args = .error e → errTagged e := by
  intro args e h
  unfold NewLRemCommand at h
  repeat' split at h
  all_goals first
    | exact Except.noConfusion h
    | (injection h with h2; subst h2; exact ⟨_, rfl⟩)

theorem errE_NewLPushXCommand : ∀ args e, NewLPushXCommand args = .error e → errTagged e := by
  intro args e h
  unfold NewLPushXCommand at h
  repeat' split at h
  all_goals first
    | exact Except.noConfusion h
    | (injection h with h2; subst h2; exact ⟨_, rfl⟩)

theorem errE_NewRPushXCommand : ∀ args e, NewRPushXCommand args = .error e → errTagged e := by
  intro args e h
  unfold NewRPushXCommand at h
  repeat' split at h
  all_goals first
    | exact Except.noConfusion h
    | (injection h with h2; subst h2; exact ⟨_, rfl⟩)

theorem errE_NewLInsertCommand : ∀ args e, NewLInsertCommand args = .error e → errTagged e := by
  intro args e h
  unfold NewLInsertCommand at h
  repeat' split at h
  all_goals first
    | exact Except.noConfusion h
    | (injection h with h2; subst h2; exact ⟨_, rfl⟩)

theorem errE_NewLRangeCommand : ∀ args e, NewLRangeCommand args = .error e → errTagged e := by
  intro args e h
  unfold NewLRangeCommand at h
  repeat' split at h
  all_goals first
    | exact Except.noConfusion h
    | (injection h with h2; subst h2; exact ⟨_, rfl⟩)

theorem errE_NewLTrimCommand : ∀ args e, NewLTrimCommand args = .error e → errTagged e := by
  intro args e h
  unfold NewLTrimCommand at h
  repeat' split at h
  all_goals first
    | exact Except.noConfusion h
    | (injection h with h2; subst h2; exact ⟨_, rfl⟩)

theorem errE_NewHSetCommand : ∀ args e, NewHSetCommand args = .error e → errTagged e := by
  intro args e h
  unfold NewHSetCommand at h
  repeat' split at h
  all_goals first
    | exact Except.noConfusion h
    | (injection h with h2; subst h2; exact ⟨_, rfl⟩)

theorem errE_NewHGetCommand : ∀ args e, NewHGetCommand args = .error e → errTagged e := by
  intro args e h
  unfold NewHGetCommand at h
  repeat' split at h
  all_goals first
    | exact Except.noConfusion h
    | (injection h with h2; subst h2; exact ⟨_, rfl⟩)

theorem errE_NewHDelCommand : ∀ args e, NewHDelCommand args = .error e → errTagged e := by
  intro args e h
  unfold NewHDelCommand at h
  repeat' split at h
  all_goals first
    | exact Except.noConfusion h
    | (injection h with h2; subst h2; exact ⟨_, rfl⟩)

theorem errE_NewHExistsCommand : ∀ args e, NewHExistsCommand args = .error e → errTagged e := by
  intro args e h
  unfold NewHExistsCommand at h
  repeat' split at h
  all_goals first
    | exact Except.noConfusion h
    | (injection h with h2; subst h2; exact ⟨_, rfl⟩)

theorem errE_NewHLenCommand : ∀ args e, NewHLenCommand args = .error e → errTagged e := by
  intro args e h
  unfold NewHLenCommand at h
  repeat' split at h
  all_goals first
    | exact Except.noConfusion h
    | (injection h with h2; subst h2; exact ⟨_, rfl⟩)

theorem errE_NewHGetAllCommand : ∀ args e, NewHGetAllCommand args = .error e → errTagged e := by
  intro args e h
  unfold NewHGetAllCommand at h
  repeat' split at h
  all_goals first
    | exact Except.noConfusion h
    | (injection h with h2; subst h2; exact ⟨_, rfl⟩)

theorem errE_NewSAddCommand : ∀ args e, NewSAddCommand args = .error e → errTagged e := by
  intro args e h
  unfold NewSAddCommand at h
  repeat' split at h
  all_goals first
    | exact Except.noConfusion h
    | (injection h with h2; subst h2; exact ⟨_, rfl⟩)

theorem errE_NewSRemCommand : ∀ args e, NewSRemCommand args = .error e → errTagged e := by
  intro args e h
  unfold NewSRemCommand at h
  repeat' split at h
  all_goals first
    | exact Except.noConfusion h
    | (injection h with h2; subst h2; exact ⟨_, rfl⟩)

theorem errE_NewSIsMemberCommand : ∀ args e, NewSIsMemberCommand args = .error e → errTagged e := by
  intro args e h
  unfold NewSIsMemberCommand at h
  repeat' split at h
  all_goals first
    | exact Except.noConfusion h
    | (injection h with h2; subst h2; exact ⟨_, rfl⟩)

theorem errE_NewSCardCommand : ∀ args e, NewSCardCommand args = .error e → errTagged e := by
  intro args e h
  unfold NewSCardCommand at h
  repeat' split at h
  all_goals first
    | exact Except.noConfusion h
    | (injection h with h2; subst h2; exact ⟨_, rfl⟩)

theorem errE_NewSMembersCommand : ∀ args e, NewSMembersCommand args = .error e → errTagged e := by
  intro args e h
  unfold NewSMembersCommand at h
  repeat' split at h
  all_goals first
    | exact Except.noConfusion h
    | (injection h with h2; subst h2; exact ⟨_, rfl⟩)

theorem errE_NewSPopCommand : ∀ args e, NewSPopCommand args = .error e → errTagged e := by
  intro args e h
  unfold NewSPopCommand at h
  repeat' split at h
  all_goals first
    | exact Except.noConfusion h
    | (injection h with h2; subst h2; exact ⟨_, rfl⟩)

theorem errE_NewSRandMemberCommand : ∀ args e, NewSRandMemberCommand args = .error e → errTagged e := by
  intro args e h
  unfold NewSRandMemberCommand at h
  repeat' split at h
  all_goals first
    | exact Except.noConfusion h
    | (injection h with h2; subst h2; exact ⟨_, rfl⟩)

theorem errE_NewSInterCommand : ∀ args e, NewSInterCommand args = .error e → errTagged e := by
  intro args e h
  unfold NewSInterCommand at h
  repeat' split at h
  all_goals first
    | exact Except.noConfusion h
    | (injection h with h2; subst h2; exact ⟨_, rfl⟩)

theorem errE_NewSUnionCommand : ∀ args e, NewSUnionCommand args = .error e → errTagged e := by
  intro args e h
  unfold NewSUnionCommand at h
  repeat' split at h
  all_goals first
    | exact Except.noConfusion h
    | (injection h with h2; subst h2; exact ⟨_, rfl⟩)

theorem errE_NewSDiffCommand : ∀ args e, NewSDiffCommand args = .error e → errTagged e := by
  intro args e h
  unfold NewSDiffCommand at h
  repeat' split at h
  all_goals first
    | exact Except.noConfusion h
    | (injection h with h2; subst h2; exact ⟨_, rfl⟩)

theorem errE_NewZScoreCommand : ∀ args e, NewZScoreCommand args = .error e → errTagged e := by
  intro args e h
  unfold NewZScoreCommand at h
  repeat' split at h
  all_goals first
    | exact Except.noConfusion h
    | (injection h with h2; subst h2; exact ⟨_, rfl⟩)

theorem errE_NewZRemCommand : ∀ args e, NewZRemCommand args = .error e → errTagged e := by
  intro args e h
  unfold NewZRemCommand at h
  repeat' split at h
  all_goals first
    | exact Except.noConfusion h
    | (injection h with h2; subst h2; exact ⟨_, rfl⟩)

theorem errE_NewZCardCommand : ∀ args e, NewZCardCommand args = .error e → errTagged e := by
  intro args e h
  unfold NewZCardCommand at h
  repeat' split at h
  all_goals first
    | exact Except.noConfusion h
    | (injection h with h2; subst h2; exact ⟨_, rfl⟩)

theorem errE_NewZRangeCommand : ∀ args e, NewZRangeCommand args = .error e → errTagged e := by
  intro args e h
  unfold NewZRangeCommand at h
  repeat' split at h
  all_goals first
    | exact Except.noConfusion h
    | (injection h with h2; subst h2; exact ⟨_, rfl⟩)

theorem errE_NewZRevRangeCommand : ∀ args e, NewZRevRangeCommand args = .error e → errTagged e := by
  intro args e h
  unfold NewZRevRangeCommand at h
  repeat' split at h
  all_goals first
    | exact Except.noConfusion h
    | (injection h with h2; subst h2; exact ⟨_, rfl⟩)

theorem errE_NewZRankCommand : ∀ args e, NewZRankCommand args = .error e → errTagged e := by
  intro args e h
  unfold NewZRankCommand at h
  repeat' split at h
  all_goals first
    | exact Except.noConfusion h
    | (injection h with h2; subst h2; exact ⟨_, rfl⟩)

theorem errE_NewZRevRankCommand : ∀ args e, NewZRevRankCommand args = .error e → errTagged e := by
  intro args e h
  unfold NewZRevRankCommand at h
  repeat' split at h
  all_goals first
    | exact Except.noConfusion h
    | (injection h with h2; subst h2; exact ⟨_, rfl⟩)

theorem errE_NewZCountCommand : ∀ pf args e, NewZCountCommand pf args = .error e → errTagged e := by
  intro pf args e h
  unfold NewZCountCommand at h
  repeat' split at h
  all_goals first
    | exact Except.noConfusion h
    | (injection h with h2; subst h2; exact ⟨_, rfl⟩)

theorem errE_NewZIncrByCommand : ∀ pf args e, NewZIncrByCommand pf args = .error e → errTagged e := by
  intro pf args e h
  unfold NewZIncrByCommand at h
  repeat' split at h
  all_goals first
    | exact Except.noConfusion h
    | (injection h with h2; subst h2; exact ⟨_, rfl⟩)

theorem parseScorePairs_err (pf : String → Option Int) :
    ∀ (args : List RespValue) (e : String),
      parseScorePairs pf args = .error e → errTagged e
  | [], e, h => by simp [parseScorePairs] at h
  | a :: b :: rest, e, h => by
    unfold parseScorePairs at h
    repeat' split at h
    all_goals first
      | exact Except.noConfusion h
      | (injection h with h2; subst h2; exact ⟨_, rfl⟩)
      | (injection h with h2; subst h2;
         exact parseScorePairs_err pf rest _ (by assumption))
  | [a], e, h => by
    unfold parseScorePairs at h
    injection h with h2
    subst h2
    exact ⟨_, rfl⟩

theorem parseRangeOpts_err :
    ∀ (args : List RespValue) (off cnt : Int) (ws : Bool) (e : String),
      parseRangeOpts args off cnt ws = .error e → errTagged e
  | [], _, _, _, e, h => by simp [parseRangeOpts] at h
  | [a], off, cnt, ws, e, h => by
    unfold parseRangeOpts at h
    split at h
    · simp [parseRangeOpts] at h
    · split at h
      · have h2 : Except.error (α := Int × Int × Bool) "ERR syntax error" = Except.error e := h
        injection h2 with h3
        subst h3
        exact ⟨_, rfl⟩
      · injection h with h3
        subst h3
        exact ⟨_, rfl⟩
  | [a, b], off, cnt, ws, e, h => by
    unfold parseRangeOpts at h
    split at h
    · exact parseRangeOpts_err [b] _ _ _ _ h
    · split at h
      · have h2 : Except.error (α := Int × Int × Bool) "ERR syntax error" = Except.error e := h
        injection h2 with h3
        subst h3
        exact ⟨_, rfl⟩
      · injection h with h3
        subst h3
        exact ⟨_, rfl⟩
  | a :: o :: c :: rest2, off, cnt, ws, e, h => by
    unfold parseRangeOpts at h
    split at h
    · exact parseRangeOpts_err (o :: c :: rest2) _ _ _ _ h
    · split at h
      · have h2 : (match parseInt64 (rvStr o) with
            | none => Except.error (α := Int × Int × Bool)
                "ERR offset is not an integer or out of range"
            | some off2 =>
              match parseInt64 (rvStr c) with
              | none => Except.error "ERR count is not an integer or out of range"
              | some cnt2 => parseRangeOpts rest2 off2 cnt2 ws) = Except.error e := h
        repeat' split at h2
        all_goals first
          | exact Except.noConfusion h2
          | (injection h2 with h3; subst h3; exact ⟨_, rfl⟩)
          | exact parseRangeOpts_err rest2 _ _ _ _ h2
      · injection h with h3
        subst h3
        exact ⟨_, rfl⟩

theorem errE_NewZAddCommand : ∀ pf args e, NewZAddCommand pf args = .error e → errTagged e := by
  intro pf args e h
  unfold NewZAddCommand at h
  repeat' split at h
  all_goals first
    | exact Except.noConfusion h
    | (injection h with h2; subst h2; exact ⟨_, rfl⟩)
    | (injection h with h2; subst h2; exact parseScorePairs_err pf _ _ (by assumption))

theorem errE_NewZRangeByScoreCommand :
    ∀ pf args e, NewZRangeByScoreCommand pf args = .error e → errTagged e := by
  intro pf args e h
  unfold NewZRangeByScoreCommand at h
  repeat' split at h
  all_goals first
    | exact Except.noConfusion h
    | (injection h with h2; subst h2; exact ⟨_, rfl⟩)
    | (injection h with h2; subst h2; exact parseRangeOpts_err _ _ _ _ _ (by assumption))

theorem errE_NewZRevRangeByScoreCommand :
    ∀ pf args e, NewZRevRangeByScoreCommand pf args = .error e → errTagged e := by
  intro pf args e h
  unfold NewZRevRangeByScoreCommand at h
  repeat' split at h
  all_goals first
    | exact Except.noConfusion h
    | (injection h with h2; subst h2; exact ⟨_, rfl⟩)
    | (injection h with h2; subst h2; exact parseRangeOpts_err _ _ _ _ _ (by assumption))

set_option maxHeartbeats 3200000 in
/-- Every error produced by `ParseCommand` (including every validator)
is an ERR-tagged message. -/
theorem parseCommand_err (pf : String → Option Int) :
    ∀ v e, parseCommand pf v = .error e → errTagged e := by
  intro v e h
  unfold parseCommand at h
  split at h
  · split at h
    · injection h with h2
      subst h2
      exact ⟨_, rfl⟩
    · rename_i ctor heq0
      have heq : ∃ name, registryFind pf name = some ctor := ⟨_, heq0⟩
      obtain ⟨name, heq⟩ := heq
      unfold registryFind at heq
      repeat' split at heq
      all_goals first
        | exact Option.noConfusion heq
        | (injection heq with h3; subst h3;
           first
             | exact errE_NewPingCommand _ _ h
             | exact errE_NewSetCommand _ _ h
             | exact errE_NewGetCommand _ _ h
             | exact errE_NewDelCommand _ _ h
             | exact errE_NewExistsCommand _ _ h
             | exact errE_NewIncrCommand _ _ h
             | exact errE_NewDecrCommand _ _ h
             | exact errE_NewLPushCommand _ _ h
             | exact errE_NewRPushCommand _ _ h
             | exact errE_NewLPopCommand _ _ h
             | exact errE_NewRPopCommand _ _ h
             | exact errE_NewLLenCommand _ _ h
             | exact errE_NewLIndexCommand _ _ h
             | exact errE_NewLSetCommand _ _ h
             | exact errE_NewLRemCommand _ _ h
             | exact errE_NewLPushXCommand _ _ h
             | exact errE_NewRPushXCommand _ _ h
             | exact errE_NewLInsertCommand _ _ h
             | exact errE_NewLRangeCommand _ _ h
             | exact errE_NewLTrimCommand _ _ h
             | exact errE_NewHSetCommand _ _ h
             | exact errE_NewHGetCommand _ _ h
             | exact errE_NewHDelCommand _ _ h
             | exact errE_NewHExistsCommand _ _ h
             | exact errE_NewHLenCommand _ _ h
             | exact errE_NewHGetAllCommand _ _ h
             | exact errE_NewSAddCommand _ _ h
             | exact errE_NewSRemCommand _ _ h
             | exact errE_NewSIsMemberCommand _ _ h
             | exact errE_NewSCardCommand _ _ h
             | exact errE_NewSMembersCommand _ _ h
             | exact errE_NewSPopCommand _ _ h
             | exact errE_NewSRandMemberCommand _ _ h
             | exact errE_NewSInterCommand _ _ h
             | exact errE_NewSUnionCommand _ _ h
             | exact errE_NewSDiffCommand _ _ h
             | exact errE_NewZScoreCommand _ _ h
             | exact errE_NewZRemCommand _ _ h
             | exact errE_NewZCardCommand _ _ h
             | exact errE_NewZRangeCommand _ _ h
             | exact errE_NewZRevRangeCommand _ _ h
             | exact errE_NewZRankCommand _ _ h
             | exact errE_NewZRevRankCommand _ _ h
             | exact errE_NewZAddCommand _ _ _ h
             | exact errE_NewZRangeByScoreCommand _ _ _ h
             | exact errE_NewZCountCommand _ _ _ h
             | exact errE_NewZIncrByCommand _ _ _ h
             | exact errE_NewZRevRangeByScoreCommand _ _ _ h)
  · injection h with h2
    subst h2
    exact ⟨_, rfl⟩

/-! ## Sorted-set ranks (`Storage.ZRank`, `Storage.ZRevRank`) -/

/-- The ascending comparator of `ZRank`/`ZRange`: by score, ties broken
by ascending member. -/
def ascLess (x y : String × Int) : Bool :=
  if x.2 ≠ y.2 then decide (x.2 < y.2) else goStrLt x.1 y.1

/-- The descending comparator of `ZRevRank`/`ZRevRange`: by score
descending, ties still broken by ASCENDING member. -/
def descLess (x y : String × Int) : Bool :=
  if x.2 ≠ y.2 then decide (y.2 < x.2) else goStrLt x.1 y.1

/-- `Storage.ZRank`: `none` for a missing key or member, otherwise the
index of the member in the ascending sort. -/
def sZRank (st : Store) (key member : String) : Except String (Option Int) :=
  match lookupStore st key with
  | none => .ok none
  | some (.zset z) =>
    if (zsetLookup z member).isSome then
      .ok (some ((sortBy (fun a b => !ascLess b a) z).findIdx (fun p => p.1 == member) : Int))
    else .ok none
  | some _ => .error wrongTypeMsg

/-- `Storage.ZRevRank`. -/
def sZRevRank (st : Store) (key member : String) : Except String (Option Int) :=
  match lookupStore st key with
  | none => .ok none
  | some (.zset z) =>
    if (zsetLookup z member).isSome then
      .ok (some ((sortBy (fun a b => !descLess b a) z).findIdx (fun p => p.1 == member) : Int))
    else .ok none
  | some _ => .error wrongTypeMsg

theorem charEq_of_not_lt {a b : Char} (h1 : ¬ a < b) (h2 : ¬ b < a) : a = b := by
  rcases lt_trichotomy a b with h | h | h
  · exact absurd h h1
  · exact h
  · exact absurd h h2

theorem strLtChars_cons_iff {a b : Char} {as bs : List Char} :
    strLtChars (a :: as) (b :: bs) = true ↔
      a < b ∨ (a = b ∧ strLtChars as bs = true) := by
  simp only [strLtChars]
  by_cases h1 : a < b
  · simp [h1]
  · by_cases h2 : b < a
    · have hne : ¬ a = b := fun he => absurd h2 (he ▸ lt_irrefl a)
      simp [h1, h2, hne]
    · have heq : a = b := charEq_of_not_lt h1 h2
      simp [h1, h2, heq]

theorem strLtChars_irrefl (as : List Char) : strLtChars as as = false := by
  induction as with
  | nil => rfl
  | cons a as ih =>
    rw [Bool.eq_false_iff]
    intro h
    rcases strLtChars_cons_iff.mp h with h | ⟨_, h⟩
    · exact absurd h (lt_irrefl a)
    · exact absurd h (by rw [ih]; simp)

theorem strLtChars_asymm : ∀ {as bs : List Char},
    strLtChars as bs = true → strLtChars bs as = false
  | [], [], h => by simp [strLtChars] at h
  | [], _ :: _, _ => by simp [strLtChars]
  | _ :: _, [], h => by simp [strLtChars] at h
  | a :: as, b :: bs, h => by
    rw [Bool.eq_false_iff]
    intro h2
    rcases strLtChars_cons_iff.mp h with h | ⟨he, h⟩ <;>
      rcases strLtChars_cons_iff.mp h2 with h2 | ⟨he2, h2⟩
    · exact absurd (lt_trans h h2) (lt_irrefl a)
    · exact absurd h (he2 ▸ lt_irrefl b)
    · exact absurd h2 (he ▸ lt_irrefl a)
    · exact absurd h2 (by rw [strLtChars_asymm h]; simp)

theorem strLtChars_conn : ∀ {as bs : List Char},
    as ≠ bs → strLtChars as bs = true ∨ strLtChars bs as = true
  | [], [], h => absurd rfl h
  | [], _ :: _, _ => Or.inl (by simp [strLtChars])
  | _ :: _, [], _ => Or.inr (by simp [strLtChars])
  | a :: as, b :: bs, h => by
    rcases lt_trichotomy a b with hab | hab | hab
    · exact Or.inl (strLtChars_cons_iff.mpr (Or.inl hab))
    · subst hab
      have hne : as ≠ bs := fun he => h (by rw [he])
      rcases strLtChars_conn hne with h2 | h2
      · exact Or.inl (strLtChars_cons_iff.mpr (Or.inr ⟨rfl, h2⟩))
      · exact Or.inr (strLtChars_cons_iff.mpr (Or.inr ⟨rfl, h2⟩))
    · exact Or.inr (strLtChars_cons_iff.mpr (Or.inl hab))

theorem strLtChars_trans : ∀ {as bs cs : List Char},
    strLtChars as bs = true → strLtChars bs cs = true → strLtChars as cs = true
  | [], [], _, h1, _ => by simp [strLtChars] at h1
  | [], _ :: _, [], _, h2 => by simp [strLtChars] at h2
  | [], _ :: _, _ :: _, _, _ => by simp [strLtChars]
  | _ :: _, [], _, h1, _ => by simp [strLtChars] at h1
  | _ :: _, _ :: _, [], _, h2 => by simp [strLtChars] at h2
  | a :: as, b :: bs, c :: cs, h1, h2 => by
    rcases strLtChars_cons_iff.mp h1 with hab | ⟨hab, hr1⟩ <;>
      rcases strLtChars_cons_iff.mp h2 with hbc | ⟨hbc, hr2⟩
    · exact strLtChars_cons_iff.mpr (Or.inl (lt_trans hab hbc))
    · exact strLtChars_cons_iff.mpr (Or.inl (hbc ▸ hab))
    · exact strLtChars_cons_iff.mpr (Or.inl (hab ▸ hbc))
    · exact strLtChars_cons_iff.mpr
        (Or.inr ⟨hab.trans hbc, strLtChars_trans hr1 hr2⟩)

theorem goStrLt_irrefl (s : String) : goStrLt s s = false :=
  strLtChars_irrefl s.data

theorem goStrLt_asymm {s t : String} (h : goStrLt s t = true) : goStrLt t s = false :=
  strLtChars_asymm h

theorem goStrLt_conn {s t : String} (h : s ≠ t) :
    goStrLt s t = true ∨ goStrLt t s = true :=
  strLtChars_conn (fun he => h (by cases s; cases t; exact congrArg String.mk he))

theorem goStrLt_trans {s t u : String} (h1 : goStrLt s t = true)
    (h2 : goStrLt t u = true) : goStrLt s u = true :=
  strLtChars_trans h1 h2

theorem ascLess_iff {x y : String × Int} :
    ascLess x y = true ↔ x.2 < y.2 ∨ (x.2 = y.2 ∧ goStrLt x.1 y.1 = true) := by
  unfold ascLess
  by_cases h : x.2 = y.2
  · simp [h]
  · have : ¬ x.2 = y.2 ∧ True := ⟨h, trivial⟩
    simp [h]

theorem descLess_iff {x y : String × Int} :
    descLess x y = true ↔ y.2 < x.2 ∨ (x.2 = y.2 ∧ goStrLt x.1 y.1 = true) := by
  unfold descLess
  by_cases h : x.2 = y.2
  · simp [h]
  · simp [h]

theorem ascLess_irrefl (x : String × Int) : ascLess x x = false := by
  rw [Bool.eq_false_iff]
  intro h
  rcases ascLess_iff.mp h with h | ⟨_, h⟩
  · exact absurd h (lt_irrefl _)
  · exact absurd h (by rw [goStrLt_irrefl]; simp)

theorem descLess_irrefl (x : String × Int) : descLess x x = false := by
  rw [Bool.eq_false_iff]
  intro h
  rcases descLess_iff.mp h with h | ⟨_, h⟩
  · exact absurd h (lt_irrefl _)
  · exact absurd h (by rw [goStrLt_irrefl]; simp)

theorem ascLess_asymm {x y : String × Int} (h : ascLess x y = true) :
    ascLess y x = false := by
  rw [Bool.eq_false_iff]
  intro h2
  rcases ascLess_iff.mp h with h | ⟨he, h⟩ <;> rcases ascLess_iff.mp h2 with h2 | ⟨he2, h2⟩
  · omega
  · omega
  · omega
  · exact absurd h2 (by rw [goStrLt_asymm h]; simp)

theorem descLess_asymm {x y : String × Int} (h : descLess x y = true) :
    descLess y x = false := by
  rw [Bool.eq_false_iff]
  intro h2
  rcases descLess_iff.mp h with h | ⟨he, h⟩ <;> rcases descLess_iff.mp h2 with h2 | ⟨he2, h2⟩
  · omega
  · omega
  · omega
  · exact absurd h2 (by rw [goStrLt_asymm h]; simp)

theorem ascLess_conn {x y : String × Int} (h : x.1 ≠ y.1) :
    ascLess x y = true ∨ ascLess y x = true := by
  rcases lt_trichotomy x.2 y.2 with hs | hs | hs
  · exact Or.inl (ascLess_iff.mpr (Or.inl hs))
  · rcases goStrLt_conn h with hm | hm
    · exact Or.inl (ascLess_iff.mpr (Or.inr ⟨hs, hm⟩))
    · exact Or.inr (ascLess_iff.mpr (Or.inr ⟨hs.symm, hm⟩))
  · exact Or.inr (ascLess_iff.mpr (Or.inl hs))

theorem descLess_conn {x y : String × Int} (h : x.1 ≠ y.1) :
    descLess x y = true ∨ descLess y x = true := by
  rcases lt_trichotomy x.2 y.2 with hs | hs | hs
  · exact Or.inr (descLess_iff.mpr (Or.inl hs))
  · rcases goStrLt_conn h with hm | hm
    · exact Or.inl (descLess_iff.mpr (Or.inr ⟨hs, hm⟩))
    · exact Or.inr (descLess_iff.mpr (Or.inr ⟨hs.symm, hm⟩))
  · exact Or.inl (descLess_iff.mpr (Or.inl hs))

theorem ascLess_negtrans {a b c : String × Int} (h : ascLess c a = true) :
    ascLess c b = true ∨ ascLess b a = true := by
  rcases ascLess_iff.mp h with hs | ⟨hs, hm⟩
  · rcases lt_trichotomy c.2 b.2 with h2 | h2 | h2
    · exact Or.inl (ascLess_iff.mpr (Or.inl h2))
    · exact Or.inr (ascLess_iff.mpr (Or.inl (by omega)))
    · exact Or.inr (ascLess_iff.mpr (Or.inl (by omega)))
  · rcases lt_trichotomy c.2 b.2 with h2 | h2 | h2
    · exact Or.inl (ascLess_iff.mpr (Or.inl h2))
    · by_cases hcb : c.1 = b.1
      · exact Or.inr (ascLess_iff.mpr (Or.inr ⟨by omega, hcb ▸ hm⟩))
      · rcases goStrLt_conn hcb with hm2 | hm2
        · exact Or.inl (ascLess_iff.mpr (Or.inr ⟨h2, hm2⟩))
        · exact Or.inr (ascLess_iff.mpr (Or.inr ⟨by omega, goStrLt_trans hm2 hm⟩))
    · exact Or.inr (ascLess_iff.mpr (Or.inl (by omega)))

theorem descLess_negtrans {a b c : String × Int} (h : descLess c a = true) :
    descLess c b = true ∨ descLess b a = true := by
  rcases descLess_iff.mp h with hs | ⟨hs, hm⟩
  · rcases lt_trichotomy b.2 c.2 with h2 | h2 | h2
    · exact Or.inl (descLess_iff.mpr (Or.inl h2))
    · exact Or.inr (descLess_iff.mpr (Or.inl (by omega)))
    · exact Or.inr (descLess_iff.mpr (Or.inl (by omega)))
  · rcases lt_trichotomy b.2 c.2 with h2 | h2 | h2
    · exact Or.inl (descLess_iff.mpr (Or.inl h2))
    · by_cases hcb : c.1 = b.1
      · exact Or.inr (descLess_iff.mpr (Or.inr ⟨by omega, hcb ▸ hm⟩))
      · rcases goStrLt_conn hcb with hm2 | hm2
        · exact Or.inl (descLess_iff.mpr (Or.inr ⟨by omega, hm2⟩))
        · exact Or.inr (descLess_iff.mpr (Or.inr ⟨by omega, goStrLt_trans hm2 hm⟩))
    · exact Or.inr (descLess_iff.mpr (Or.inl (by omega)))

/-- In an association list with no duplicate keys, entries are
determined by their key. -/
theorem keyUnique {β : Type} {l : List (String × β)} (h : (l.map Prod.fst).Nodup)
    {p q : String × β} (hp : p ∈ l) (hq : q ∈ l) (hk : p.1 = q.1) : p = q := by
  induction l with
  | nil => cases hp
  | cons r l ih =>
    simp only [List.map_cons, List.nodup_cons] at h
    rcases List.mem_cons.mp hp with rfl | hp2 <;> rcases List.mem_cons.mp hq with rfl | hq2
    · rfl
    · exact absurd (hk ▸ List.mem_map_of_mem Prod.fst hq2) h.1
    · exact absurd (hk ▸ List.mem_map_of_mem Prod.fst hp2) h.1
    · exact ih h.2 hp2 hq2

/-- In a list sorted by the complement of a strict comparator, the index
of the unique entry with a given key is the number of entries strictly
below it. -/
theorem findIdx_sorted_eq_countP (less : (String × Int) → (String × Int) → Bool)
    (x : String × Int) (hirr : less x x = false) :
    ∀ (L : List (String × Int)),
      List.Pairwise (fun a b => (!less b a) = true) L →
      x ∈ L →
      (∀ p ∈ L, p.1 = x.1 → p = x) →
      (∀ p ∈ L, p ≠ x → less p x = true ∨ less x p = true) →
      L.findIdx (fun p => p.1 == x.1) = L.countP (fun p => less p x) := by
  intro L
  induction L with
  | nil => intro _ hx; cases hx
  | cons p L ih =>
    intro hsorted hx hkey hcomp
    rcases List.pairwise_cons.mp hsorted with ⟨hp, hL⟩
    by_cases hpm : p.1 = x.1
    · have hpx : p = x := hkey p (List.mem_cons_self p L) hpm
      subst hpx
      rw [List.findIdx_cons, List.countP_cons]
      have hbeq : (p.1 == p.1) = true := beq_self_eq_true p.1
      rw [hbeq, hirr]
      have hcount : L.countP (fun q => less q p) = 0 := by
        rw [List.countP_eq_zero]
        intro q hq
        have := hp q hq
        simp only [Bool.not_eq_true'] at this
        simp [this]
      simp [hcount]
    · have hpx : p ≠ x := fun he => hpm (he ▸ rfl)
      have hxL : x ∈ L := by
        rcases List.mem_cons.mp hx with rfl | hx2
        · exact absurd rfl hpx
        · exact hx2
      have hplt : less p x = true := by
        rcases hcomp p (List.mem_cons_self p L) hpx with h | h
        · exact h
        · have h2 := hp x hxL
          simp only [Bool.not_eq_true'] at h2
          exact absurd h (by rw [h2]; simp)
      rw [List.findIdx_cons, List.countP_cons]
      have hbeq : (p.1 == x.1) = false := by
        rw [beq_eq_false_iff_ne]
        exact hpm
      rw [hbeq, hplt]
      rw [ih hL hxL
        (fun q hq hqk => hkey q (List.mem_cons_of_mem p hq) hqk)
        (fun q hq hqx => hcomp q (List.mem_cons_of_mem p hq) hqx)]
      simp [Nat.add_comm]

/-- When every element satisfies exactly one of `P` and `Q`, the two
counts add up to the length. -/
theorem countP_add_eq_length_all {β : Type} (P Q : β → Bool) :
    ∀ (l : List β),
      (∀ p ∈ l, (P p = true ∨ Q p = true) ∧ ¬ (P p = true ∧ Q p = true)) →
      l.countP P + l.countP Q = l.length := by
  intro l
  induction l with
  | nil => intro _; simp
  | cons q l ih =>
    intro hs
    rw [List.countP_cons, List.countP_cons, List.length_cons]
    rcases hs q (List.mem_cons_self q l) with ⟨hor, hnand⟩
    have hrec := ih (fun r hr => hs r (List.mem_cons_of_mem q hr))
    by_cases hP : P q = true
    · have hQ : Q q = false := Bool.eq_false_iff.mpr (fun hQ => hnand ⟨hP, hQ⟩)
      simp [hP, hQ]
      omega
    · have hP2 : P q = false := Bool.eq_false_iff.mpr hP
      have hQ : Q q = true := hor.resolve_left hP
      simp [hP2, hQ]
      omega

/-- When every non-`x` element satisfies exactly one of `P`, `Q`, neither
holds at `x`, and `x` occurs exactly once, the two counts add up to the
length minus one. -/
theorem countP_add_eq_length_split {β : Type} [DecidableEq β] (P Q : β → Bool) (x : β)
    (hPx : P x = false) (hQx : Q x = false) :
    ∀ (l : List β),
      (∀ p ∈ l, p ≠ x → (P p = true ∨ Q p = true) ∧ ¬ (P p = true ∧ Q p = true)) →
      l.count x = 1 →
      l.countP P + l.countP Q + 1 = l.length := by
  intro l
  induction l with
  | nil => intro _ hc; simp at hc
  | cons q l ih =>
    intro hs hc
    rw [List.countP_cons, List.countP_cons, List.length_cons]
    by_cases hqx : q = x
    · subst hqx
      rw [List.count_cons] at hc
      simp only [beq_self_eq_true, if_pos] at hc
      have hnot : q ∉ l := List.count_eq_zero.mp (by omega)
      have hall := countP_add_eq_length_all P Q l
        (fun p hp => hs p (List.mem_cons_of_mem q hp) (fun he => hnot (he ▸ hp)))
      simp [hPx, hQx]
      omega
    · rw [List.count_cons] at hc
      have hbe : (q == x) = false := by
        rw [beq_eq_false_iff_ne]
        exact hqx
      rw [hbe] at hc
      simp only [Bool.false_eq_true, if_neg, Nat.add_zero] at hc
      rcases hs q (List.mem_cons_self q l) hqx with ⟨hor, hnand⟩
      have hrec := ih (fun r hr hrx => hs r (List.mem_cons_of_mem q hr) hrx) hc
      by_cases hP : P q = true
      · have hQ : Q q = false := Bool.eq_false_iff.mpr (fun hQ => hnand ⟨hP, hQ⟩)
        simp [hP, hQ]
        omega
      · have hP2 : P q = false := Bool.eq_false_iff.mpr hP
        have hQ : Q q = true := hor.resolve_left hP
        simp [hP2, hQ]
        omega

theorem ascSort_total (a b : String × Int) :
    (!ascLess b a) = true ∨ (!ascLess a b) = true := by
  by_cases h : ascLess b a = true
  · right
    rw [ascLess_asymm h]
    rfl
  · left
    simp [h]

theorem ascSort_trans (a b c : String × Int) (h1 : (!ascLess b a) = true)
    (h2 : (!ascLess c b) = true) : (!ascLess c a) = true := by
  simp only [Bool.not_eq_true'] at h1 h2 ⊢
  by_contra hca
  rw [Bool.not_eq_false] at hca
  rcases ascLess_negtrans hca with h3 | h3
  · rw [h2] at h3
    cases h3
  · rw [h1] at h3
    cases h3

theorem descSort_total (a b : String × Int) :
    (!descLess b a) = true ∨ (!descLess a b) = true := by
  by_cases h : descLess b a = true
  · right
    rw [descLess_asymm h]
    rfl
  · left
    simp [h]

theorem descSort_trans (a b c : String × Int) (h1 : (!descLess b a) = true)
    (h2 : (!descLess c b) = true) : (!descLess c a) = true := by
  simp only [Bool.not_eq_true'] at h1 h2 ⊢
  by_contra hca
  rw [Bool.not_eq_false] at hca
  rcases descLess_negtrans hca with h3 | h3
  · rw [h2] at h3
    cases h3
  · rw [h1] at h3
    cases h3

/-- The ascending rank is the number of entries strictly below the
member in the `(score, member)` order. -/
theorem zrank_eq_count (z : List (String × Int)) (m : String) (s : Int)
    (hnodup : (z.map Prod.fst).Nodup) (hmem : (m, s) ∈ z) :
    (sortBy (fun a b => !ascLess b a) z).findIdx (fun p => p.1 == m) =
      z.countP (fun p => ascLess p (m, s)) := by
  have hperm : List.Perm (sortBy (fun a b => !ascLess b a) z) z := sortBy_perm _ z
  have hsorted := sortBy_pairwise (fun a b => !ascLess b a)
    (fun a b => ascSort_total a b) (fun a b c => ascSort_trans a b c) z
  have hx : (m, s) ∈ sortBy (fun a b => !ascLess b a) z := hperm.mem_iff.mpr hmem
  have hkey : ∀ p ∈ sortBy (fun a b => !ascLess b a) z, p.1 = m → p = (m, s) :=
    fun p hp hpk => keyUnique hnodup (hperm.subset hp) hmem hpk
  have hcomp : ∀ p ∈ sortBy (fun a b => !ascLess b a) z, p ≠ (m, s) →
      ascLess p (m, s) = true ∨ ascLess (m, s) p = true := by
    intro p hp hne
    have hpz : p ∈ z := hperm.subset hp
    have hk : p.1 ≠ m := fun he => hne (keyUnique hnodup hpz hmem he)
    exact ascLess_conn hk
  have hmain := findIdx_sorted_eq_countP ascLess (m, s) (ascLess_irrefl _)
    (sortBy (fun a b => !ascLess b a) z) hsorted hx hkey hcomp
  rw [hmain, hperm.countP_eq]

/-- The descending rank is the number of entries strictly above the
member in the descending order. -/
theorem zrevrank_eq_count (z : List (String × Int)) (m : String) (s : Int)
    (hnodup : (z.map Prod.fst).Nodup) (hmem : (m, s) ∈ z) :
    (sortBy (fun a b => !descLess b a) z).findIdx (fun p => p.1 == m) =
      z.countP (fun p => descLess p (m, s)) := by
  have hperm : List.Perm (sortBy (fun a b => !descLess b a) z) z := sortBy_perm _ z
  have hsorted := sortBy_pairwise (fun a b => !descLess b a)
    (fun a b => descSort_total a b) (fun a b c => descSort_trans a b c) z
  have hx : (m, s) ∈ sortBy (fun a b => !descLess b a) z := hperm.mem_iff.mpr hmem
  have hkey : ∀ p ∈ sortBy (fun a b => !descLess b a) z, p.1 = m → p = (m, s) :=
    fun p hp hpk => keyUnique hnodup (hperm.subset hp) hmem hpk
  have hcomp : ∀ p ∈ sortBy (fun a b => !descLess b a) z, p ≠ (m, s) →
      descLess p (m, s) = true ∨ descLess (m, s) p = true := by
    intro p hp hne
    have hpz : p ∈ z := hperm.subset hp
    have hk : p.1 ≠ m := fun he => hne (keyUnique hnodup hpz hmem he)
    exact descLess_conn hk
  have hmain := findIdx_sorted_eq_countP descLess (m, s) (descLess_irrefl _)
    (sortBy (fun a b => !descLess b a) z) hsorted hx hkey hcomp
  rw [hmain, hperm.countP_eq]

/-- The combinatorial core of rank consistency: when no other member
shares the score of `(m, s)`, the two ranks add to the cardinality
minus one. -/
theorem rank_add_revrank (z : List (String × Int)) (m : String) (s : Int)
    (hnodup : (z.map Prod.fst).Nodup) (hmem : (m, s) ∈ z)
    (huniq : ∀ p ∈ z, p.1 ≠ m → p.2 ≠ s) :
    z.countP (fun p => ascLess p (m, s)) + z.countP (fun p => descLess p (m, s)) + 1 =
      z.length := by
  refine countP_add_eq_length_split (fun p => ascLess p (m, s))
    (fun p => descLess p (m, s)) (m, s) (ascLess_irrefl _) (descLess_irrefl _) z ?_ ?_
  · intro p hp hne
    have hk : p.1 ≠ m := fun he => hne (keyUnique hnodup hp hmem he)
    have hsne : p.2 ≠ s := huniq p hp hk
    constructor
    · rcases lt_trichotomy p.2 s with h | h | h
      · exact Or.inl (ascLess_iff.mpr (Or.inl h))
      · exact absurd h hsne
      · exact Or.inr (descLess_iff.mpr (Or.inl h))
    · rintro ⟨h1, h2⟩
      rcases ascLess_iff.mp h1 with h1 | ⟨h1, _⟩
      · rcases descLess_iff.mp h2 with h2 | ⟨h2, _⟩
        · omega
        · exact hsne h2
      · exact hsne h1
  · exact List.count_eq_one_of_mem (hnodup.of_map _) hmem

/-! ## Supporting evaluation lemmas for the claims -/

theorem zsetLookup_isSome_of_mem :
    ∀ {z : List (String × Int)} {m : String} {s : Int},
      (m, s) ∈ z → (zsetLookup z m).isSome = true
  | [], m, s, h => by cases h
  | (m0, s0) :: z, m, s, h => by
    unfold zsetLookup
    by_cases he : m0 = m
    · simp [he]
    · rw [if_neg he]
      rcases List.mem_cons.mp h with h2 | h2
      · exact absurd (congrArg Prod.fst h2).symm he
      · exact zsetLookup_isSome_of_mem h2

theorem sHDel_eval (st : Store) (k : String) (h : List (String × String))
    (fs : List String) (hlook : lookupStore st k = some (.hash h)) :
    sHDel st k fs = (.ok (hdelLoop h fs).1,
      if (hdelLoop h fs).2.length = 0 then storeDelete st k
      else storeSet st k (.hash (hdelLoop h fs).2)) := by
  unfold sHDel
  rw [hlook]
  by_cases hz : (hdelLoop h fs).2.length = 0 <;> simp [hz]

theorem sSRem_eval (st : Store) (k : String) (m : List String)
    (ms : List String) (hlook : lookupStore st k = some (.setv m)) :
    sSRem st k ms = (.ok (sremLoop m ms).1,
      if (sremLoop m ms).2.length = 0 then storeDelete st k
      else storeSet st k (.setv (sremLoop m ms).2)) := by
  unfold sSRem
  rw [hlook]
  by_cases hz : (sremLoop m ms).2.length = 0 <;> simp [hz]

theorem sZRem_eval (st : Store) (k : String) (z : List (String × Int))
    (ms : List String) (hlook : lookupStore st k = some (.zset z)) :
    sZRem st k ms = (.ok (zremLoop z ms).1,
      if (zremLoop z ms).2.length = 0 then storeDelete st k
      else storeSet st k (.zset (zremLoop z ms).2)) := by
  unfold sZRem
  rw [hlook]
  by_cases hz : (zremLoop z ms).2.length = 0 <;> simp [hz]

/-! ## The claims -/

/-- C1: the claim says INCR and DECR on a key holding a list reply
WRONGTYPE and leave the list unchanged; the code instead treats the
list key as absent (because `Storage.Get` reports a `*list.List` as
missing), replies the integer 1, and REPLACES the stored list by the
string `"1"` — contradicting the documentation comment on
`Storage.Incr` itself.  This theorem evaluates the model at the failing
input `RPUSH k a; INCR k` (and checks the GET-returns-null-bulk
exception the claim grants). -/
theorem c1_incr_on_list_eval :
    sIncr [("k", Value.list ["a"])] "k" = (.ok 1, [("k", Value.str "1")]) ∧
    incrApply [("k", Value.list ["a"])] "k" = (.reply (.int 1), [("k", Value.str "1")]) ∧
    sDecr [("k", Value.list ["a"])] "k" = (.ok (-1), [("k", Value.str "-1")]) ∧
    getApply [("k", Value.list ["a"])] "k" = .reply (.bulk "") :=
  ⟨rfl, rfl, rfl, rfl⟩

/-- C2 counterexample: after `RPUSH k a` then `LPOP k` the list's
element count is 0 yet the key still exists (EXISTS replies 1 and the
keyspace still maps `k` to an empty list), so the claimed instant
empty-delete is false for LPOP. -/
theorem c2_lpop_leaves_empty_list :
    (sLPop (sRPush ([] : Store) "k" ["a"]).2 "k").2 = [("k", Value.list [])] ∧
    sLLen (sLPop (sRPush ([] : Store) "k" ["a"]).2 "k").2 "k" = .ok 0 ∧
    sExists (sLPop (sRPush ([] : Store) "k" ["a"]).2 "k").2 ["k"] = 1 :=
  ⟨rfl, rfl, rfl⟩

/-- C2 amended: the empty-delete rule holds for the hash, set and
sorted-set mutators (HDEL, SREM, ZREM) and for LTRIM with an empty
retained range, but NOT for list pops: LPOP on a one-element list
leaves the key mapped to an empty list. -/
theorem c2_empty_delete_amended :
    (∀ st k h fs, lookupStore st k = some (.hash h) →
      ((hdelLoop h fs).2.length = 0 → lookupStore (sHDel st k fs).2 k = none) ∧
      ((hdelLoop h fs).2.length ≠ 0 →
        lookupStore (sHDel st k fs).2 k = some (.hash (hdelLoop h fs).2))) ∧
    (∀ st k m ms, lookupStore st k = some (.setv m) →
      ((sremLoop m ms).2.length = 0 → lookupStore (sSRem st k ms).2 k = none) ∧
      ((sremLoop m ms).2.length ≠ 0 →
        lookupStore (sSRem st k ms).2 k = some (.setv (sremLoop m ms).2))) ∧
    (∀ st k z ms, lookupStore st k = some (.zset z) →
      ((zremLoop z ms).2.length = 0 → lookupStore (sZRem st k ms).2 k = none) ∧
      ((zremLoop z ms).2.length ≠ 0 →
        lookupStore (sZRem st k ms).2 k = some (.zset (zremLoop z ms).2))) ∧
    (∀ st k l a b, lookupStore st k = some (.list l) → ltrimCore l a b = none →
      lookupStore (sLTrim st k a b).2 k = none) ∧
    (∀ st k v, lookupStore st k = some (.list [v]) →
      (sLPop st k).1 = .ok v ∧ lookupStore (sLPop st k).2 k = some (.list [])) := by
  refine ⟨?_, ?_, ?_, ?_, ?_⟩
  · intro st k h fs hlook
    rw [sHDel_eval st k h fs hlook]
    by_cases hz : (hdelLoop h fs).2.length = 0
    · rw [if_pos hz]
      exact ⟨fun _ => lookupStore_delete_self st k, fun hne => absurd hz hne⟩
    · rw [if_neg hz]
      exact ⟨fun h0 => absurd h0 hz, fun _ => lookupStore_set_self st k _⟩
  · intro st k m ms hlook
    rw [sSRem_eval st k m ms hlook]
    by_cases hz : (sremLoop m ms).2.length = 0
    · rw [if_pos hz]
      exact ⟨fun _ => lookupStore_delete_self st k, fun hne => absurd hz hne⟩
    · rw [if_neg hz]
      exact ⟨fun h0 => absurd h0 hz, fun _ => lookupStore_set_self st k _⟩
  · intro st k z ms hlook
    rw [sZRem_eval st k z ms hlook]
    by_cases hz : (zremLoop z ms).2.length = 0
    · rw [if_pos hz]
      exact ⟨fun _ => lookupStore_delete_self st k, fun hne => absurd hz hne⟩
    · rw [if_neg hz]
      exact ⟨fun h0 => absurd h0 hz, fun _ => lookupStore_set_self st k _⟩
  · intro st k l a b hlook htrim
    unfold sLTrim
    rw [hlook]
    show lookupStore (match ltrimCore l a b with
      | none => ((Except.ok () : Except String Unit), storeDelete st k)
      | some l2 => (Except.ok (), storeSet st k (Value.list l2))).2 k = none
    rw [htrim]
    exact lookupStore_delete_self st k
  · intro st k v hlook
    unfold sLPop
    rw [hlook]
    exact ⟨rfl, lookupStore_set_self st k _⟩

/-- C2 witness: concrete instances of the amended empty-delete rule. -/
theorem c2_empty_delete_amended_witness :
    lookupStore (sHDel [("h", Value.hash [("f", "v")])] "h" ["f"]).2 "h" = none ∧
    lookupStore (sSRem [("s", Value.setv ["x"])] "s" ["x"]).2 "s" = none ∧
    lookupStore (sZRem [("z", Value.zset [("a", 1)])] "z" ["a"]).2 "z" = none ∧
    lookupStore (sLTrim [("q", Value.list ["a", "b"])] "q" 1 0).2 "q" = none ∧
    (sLPop [("q", Value.list ["a"])] "q").1 = .ok "a" ∧
    lookupStore (sLPop [("q", Value.list ["a"])] "q").2 "q" = some (.list []) := by
  refine ⟨?_, ?_, ?_, ?_, ?_, ?_⟩
  · exact (c2_empty_delete_amended.1 [("h", Value.hash [("f", "v")])] "h" [("f", "v")]
      ["f"] rfl).1 rfl
  · exact (c2_empty_delete_amended.2.1 [("s", Value.setv ["x"])] "s" ["x"] ["x"] rfl).1 rfl
  · exact (c2_empty_delete_amended.2.2.1 [("z", Value.zset [("a", 1)])] "z" [("a", 1)]
      ["a"] rfl).1 rfl
  · exact c2_empty_delete_amended.2.2.2.1 [("q", Value.list ["a", "b"])] "q"
      ["a", "b"] 1 0 rfl rfl
  · exact (c2_empty_delete_amended.2.2.2.2 [("q", Value.list ["a"])] "q" "a" rfl).1
  · exact (c2_empty_delete_amended.2.2.2.2 [("q", Value.list ["a"])] "q" "a" rfl).2

/-- C3 counterexample: the null bulk `$-1\r\n` decodes to `NewBulk("")`,
the very value the empty bulk `$0\r\n\r\n` decodes to, and the null
array `*-1\r\n` decodes to the same value as the empty array — so the
null inputs do NOT decode to sentinels distinguishable from empty, and
the encoder maps the "null bulk" value to `$0\r\n\r\n`, not `$-1\r\n`. -/
theorem c3_null_not_distinguishable :
    decodeResp ("$-1\r\n".data) = .ok (.bulk "") [] ∧
    decodeResp ("$0\r\n\r\n".data) = .ok (.bulk "") [] ∧
    decodeResp ("*-1\r\n".data) = .ok (.array []) [] ∧
    decodeResp ("*0\r\n".data) = .ok (.array []) [] ∧
    encodeRV (.bulk "") = "$0\r\n\r\n".data :=
  ⟨rfl, rfl, rfl, rfl, rfl⟩

/-- C3 amended: decoding the encoding of every well-formed RESP value
yields the value back with nothing left over; but the null bulk and
null array inputs decode to the same values as the empty bulk string
and the empty array (the code has no distinguishable null sentinels). -/
theorem c3_roundtrip_amended :
    (∀ v : RespValue, wfRV v = true → decodeResp (encodeRV v) = .ok v []) ∧
    decodeResp ("$-1\r\n".data) = .ok (.bulk "") [] ∧
    decodeResp ("*-1\r\n".data) = .ok (.array []) [] :=
  ⟨fun _ h => decodeResp_encodeRV h, rfl, rfl⟩

/-- C3 witness: the round trip evaluated on a concrete nested value. -/
theorem c3_roundtrip_amended_witness :
    wfRV (.array [.bulk "bar", .int 3, .simple "OK"]) = true ∧
    decodeResp (encodeRV (.array [.bulk "bar", .int 3, .simple "OK"])) =
      .ok (.array [.bulk "bar", .int 3, .simple "OK"]) [] :=
  ⟨by decide, c3_roundtrip_amended.1 (.array [.bulk "bar", .int 3, .simple "OK"]) (by decide)⟩

/-- C4: the claim says GET on an absent key replies the null-bulk
sentinel with wire encoding `$-1\r\n`; the code replies `NewBulk("")`,
which `WriteResp` encodes as the five bytes `$0\r\n\r\n` — the server
never emits `$-1\r\n`.  Evaluated at the failing input
`SET foo bar; DEL foo; GET foo`. -/
theorem c4_get_absent_wire_eval :
    sDel (sSet ([] : Store) "foo" "bar") ["foo"] = (1, []) ∧
    getApply (sDel (sSet ([] : Store) "foo" "bar") ["foo"]).2 "foo" = .reply (.bulk "") ∧
    encodeRV (.bulk "") = "$0\r\n\r\n".data ∧
    encodeRV (.bulk "") ≠ "$-1\r\n".data :=
  ⟨rfl, rfl, rfl, by decide⟩

/-- C6: the claim says the decoder consumes one value and either returns
it or returns a protocol error, with no other outcome even on a header
line not terminated by CRLF or a bulk length below -1.  The code has a
third outcome: it panics.  On the two-byte stream `:\n` the line is the
bare `\n`, so `readLine` evaluates `line[:len(line)-2]` with a length-1
line and panics with a slice-bounds error; on `$-2\r\n` (and `*-2\r\n`)
`make([]byte, -2)` panics. -/
theorem c6_decoder_panics_eval :
    decodeResp (":\n".data) = .panicked ∧
    decodeResp ("$-2\r\n".data) = .panicked ∧
    decodeResp ("*-2\r\n".data) = .panicked :=
  ⟨rfl, rfl, rfl⟩

/-- C8: for every list key (or absent key) and all start/stop indices,
the reply of `LRANGE k a b` taken before `LTRIM k a b` equals the reply
of `LRANGE k 0 -1` taken after the trim, and when the retained range is
empty the trim deletes the key and both replies are the empty array. -/
theorem c8_lrange_ltrim_duality :
    (∀ st k a b l, lookupStore st k = some (.list l) →
      sLRange (sLTrim st k a b).2 k 0 (-1) = .ok (lrangeList l a b) ∧
      sLRange st k a b = .ok (lrangeList l a b) ∧
      (ltrimCore l a b = none →
        lookupStore (sLTrim st k a b).2 k = none ∧ lrangeList l a b = [])) ∧
    (∀ st k a b, lookupStore st k = none →
      sLRange (sLTrim st k a b).2 k 0 (-1) = .ok [] ∧ sLRange st k a b = .ok []) := by
  constructor
  · intro st k a b l hlook
    have hst : (sLTrim st k a b).2 = (match ltrimCore l a b with
        | none => storeDelete st k
        | some l2 => storeSet st k (.list l2)) := by
      unfold sLTrim
      rw [hlook]
      show (match ltrimCore l a b with
        | none => ((Except.ok () : Except String Unit), storeDelete st k)
        | some l2 => (Except.ok (), storeSet st k (Value.list l2))).2 =
          (match ltrimCore l a b with
            | none => storeDelete st k
            | some l2 => storeSet st k (.list l2))
      cases ltrimCore l a b <;> rfl
    have hdual := ltrim_lrange_list l a b
    refine ⟨?_, ?_, ?_⟩
    · rw [hst]
      cases htc : ltrimCore l a b with
      | none =>
        rw [htc] at hdual
        unfold sLRange
        rw [lookupStore_delete_self st k, ← hdual]
      | some l2 =>
        rw [htc] at hdual
        unfold sLRange
        rw [lookupStore_set_self st k (.list l2), ← hdual]
    · unfold sLRange
      rw [hlook]
    · intro htc
      rw [htc] at hdual
      constructor
      · rw [hst, htc]
        exact lookupStore_delete_self st k
      · exact hdual.symm
  · intro st k a b hlook
    have hst : (sLTrim st k a b).2 = st := by
      unfold sLTrim
      rw [hlook]
    rw [hst]
    unfold sLRange
    rw [hlook]
    exact ⟨rfl, rfl⟩

/-- C8 witness: `RPUSH q a b c; LTRIM q 1 1` keeps exactly the pre-trim
`LRANGE q 1 1`, and trimming to an empty range deletes the key. -/
theorem c8_lrange_ltrim_duality_witness :
    sLRange (sLTrim [("q", Value.list ["a", "b", "c"])] "q" 1 1).2 "q" 0 (-1) =
      .ok (lrangeList ["a", "b", "c"] 1 1) ∧
    lrangeList ["a", "b", "c"] 1 1 = ["b"] ∧
    lookupStore (sLTrim [("q", Value.list ["a", "b"])] "q" 1 0).2 "q" = none := by
  refine ⟨?_, by decide, ?_⟩
  · exact (c8_lrange_ltrim_duality.1 [("q", Value.list ["a", "b", "c"])] "q" 1 1
      ["a", "b", "c"] rfl).1
  · exact ((c8_lrange_ltrim_duality.1 [("q", Value.list ["a", "b"])] "q" 1 0
      ["a", "b"] rfl).2.2 (by decide)).1

/-- C5 counterexample: INCR on the decimal text of the maximum signed
64-bit integer does not report an error — it wraps to the minimum and
stores the wrapped value (Go's `num++` overflows silently). -/
theorem c5_incr_max_wraps :
    sIncr [("k", Value.str "9223372036854775807")] "k" =
      (.ok (-9223372036854775808), [("k", Value.str "-9223372036854775808")]) ∧
    sDecr [("k", Value.str "-9223372036854775808")] "k" =
      (.ok 9223372036854775807, [("k", Value.str "9223372036854775807")]) :=
  ⟨rfl, rfl⟩

theorem sIncr_eval_found (st : Store) (k s : String)
    (hlook : lookupStore st k = some (.str s)) :
    sIncr st k = (match parseInt64 s with
      | none => (.err "value is not an integer or out of range", st)
      | some n => (.ok (wrap64 (n + 1)), sSet st k (formatInt (wrap64 (n + 1))))) := by
  unfold sIncr sGet
  rw [hlook]

theorem sDecr_eval_found (st : Store) (k s : String)
    (hlook : lookupStore st k = some (.str s)) :
    sDecr st k = (match parseInt64 s with
      | none => (.err "value is not an integer or out of range", st)
      | some n => (.ok (wrap64 (n - 1)), sSet st k (formatInt (wrap64 (n - 1))))) := by
  unfold sDecr sGet
  rw [hlook]

/-- C5 amended: every INCR/DECR result lies in the signed 64-bit range
and text that does not parse as a signed 64-bit integer is rejected
with an error and no write; but at the boundaries the `±1` wraps
modulo 2^64 instead of failing: INCR on the maximum stores the
minimum, DECR on the minimum stores the maximum. -/
theorem c5_incr_decr_amended :
    (∀ st k s, lookupStore st k = some (.str s) → parseInt64 s = none →
      sIncr st k = (.err "value is not an integer or out of range", st) ∧
      sDecr st k = (.err "value is not an integer or out of range", st)) ∧
    (∀ st k s n, lookupStore st k = some (.str s) → parseInt64 s = some n →
      sIncr st k = (.ok (wrap64 (n + 1)), sSet st k (formatInt (wrap64 (n + 1)))) ∧
      -(2 ^ 63) ≤ wrap64 (n + 1) ∧ wrap64 (n + 1) ≤ 2 ^ 63 - 1) ∧
    wrap64 (2 ^ 63 - 1 + 1) = -(2 ^ 63) ∧ wrap64 (-(2 ^ 63) - 1) = 2 ^ 63 - 1 := by
  refine ⟨?_, ?_, by decide, by decide⟩
  · intro st k s hlook hparse
    constructor
    · rw [sIncr_eval_found st k s hlook, hparse]
    · rw [sDecr_eval_found st k s hlook, hparse]
  · intro st k s n hlook hparse
    refine ⟨?_, (wrap64_mem_range _).1, (wrap64_mem_range _).2⟩
    rw [sIncr_eval_found st k s hlook, hparse]

/-- C5 witness: the amended statement evaluated at concrete inputs. -/
theorem c5_incr_decr_amended_witness :
    sIncr [("k", Value.str "xyz")] "k" =
      (.err "value is not an integer or out of range", [("k", Value.str "xyz")]) ∧
    sIncr [("k", Value.str "41")] "k" = (.ok 42, [("k", Value.str "42")]) := by
  constructor
  · exact (c5_incr_decr_amended.1 [("k", Value.str "xyz")] "k" "xyz" rfl rfl).1
  · have h := (c5_incr_decr_amended.2.1 [("k", Value.str "41")] "k" "41" 41 rfl (by decide)).1
    rw [h]
    rfl

/-- C7 counterexample: with two members sharing a score, `ZREVRANK`
breaks the tie by ascending member just like `ZRANK`, so both ranks of
`a` in `{a:1, b:1}` are 0 while `ZCARD` is 2, and 0 + 0 + 1 ≠ 2. -/
theorem c7_rank_tie_counterexample :
    sZRank [("z", Value.zset [("a", 1), ("b", 1)])] "z" "a" = .ok (some 0) ∧
    sZRevRank [("z", Value.zset [("a", 1), ("b", 1)])] "z" "a" = .ok (some 0) ∧
    sZCard [("z", Value.zset [("a", 1), ("b", 1)])] "z" = .ok 2 ∧
    (0 : Int) + 0 + 1 ≠ 2 :=
  ⟨rfl, rfl, rfl, by decide⟩

/-- C7 amended: rank consistency `ZRANK + ZREVRANK + 1 = ZCARD` holds
for every present member whose score is shared by no other member (the
map's keys are unique, a `map[string]ZSetMember` invariant). -/
theorem c7_rank_consistency_amended :
    ∀ st k z m s, lookupStore st k = some (.zset z) →
      (z.map Prod.fst).Nodup → (m, s) ∈ z → (∀ p ∈ z, p.1 ≠ m → p.2 ≠ s) →
      ∃ r r' : Int, sZRank st k m = .ok (some r) ∧ sZRevRank st k m = .ok (some r') ∧
        sZCard st k = .ok (z.length : Int) ∧ r + r' + 1 = (z.length : Int) := by
  intro st k z m s hlook hnodup hmem huniq
  have hsome := zsetLookup_isSome_of_mem hmem
  have h1 : sZRank st k m = .ok (some
      (((sortBy (fun a b => !ascLess b a) z).findIdx (fun p => p.1 == m) : Nat) : Int)) := by
    simp [sZRank, hlook, hsome]
  have h2 : sZRevRank st k m = .ok (some
      (((sortBy (fun a b => !descLess b a) z).findIdx (fun p => p.1 == m) : Nat) : Int)) := by
    simp [sZRevRank, hlook, hsome]
  have h3 : sZCard st k = .ok (z.length : Int) := by
    simp [sZCard, hlook]
  refine ⟨_, _, h1, h2, h3, ?_⟩
  have ha := zrank_eq_count z m s hnodup hmem
  have hd := zrevrank_eq_count z m s hnodup hmem
  have hsum := rank_add_revrank z m s hnodup hmem huniq
  rw [ha, hd]
  omega

/-- C7 witness: the amended rank consistency at a concrete sorted set
with distinct scores. -/
theorem c7_rank_consistency_amended_witness :
    ∃ r r' : Int,
      sZRank [("z", Value.zset [("a", 1), ("b", 2)])] "z" "a" = .ok (some r) ∧
      sZRevRank [("z", Value.zset [("a", 1), ("b", 2)])] "z" "a" = .ok (some r') ∧
      sZCard [("z", Value.zset [("a", 1), ("b", 2)])] "z" = .ok 2 ∧
      r + r' + 1 = 2 :=
  c7_rank_consistency_amended [("z", Value.zset [("a", 1), ("b", 2)])] "z"
    [("a", 1), ("b", 2)] "a" 1 rfl (by decide) (by decide) (by decide)

/-- C9: every request that fails command parsing or validation yields a
reply whose message starts with ERR, leaves the keyspace completely
unchanged (the parse layer never receives the storage), and leaves the
connection open for the next request — for every execution function,
float parser, store and request. -/
theorem c9_parse_error_frame :
    ∀ (applyFn : Command → Store → RespValue × Store) (pf : String → Option Int)
      (st : Store) (v : RespValue) (e : String),
      parseCommand pf v = .error e →
      handleRequest applyFn pf st v = (.errv e, st, true) ∧ errTagged e := by
  intro applyFn pf st v e h
  constructor
  · unfold handleRequest
    rw [h]
  · exact parseCommand_err pf v e h

/-- C9 witness: an unknown command name produces an ERR reply and an
unchanged (empty) keyspace. -/
theorem c9_parse_error_frame_witness :
    handleRequest (fun _ st => (.simple "OK", st)) (fun _ => none) []
      (.array [.bulk "nope"]) = (.errv "ERR unknown command 'NOPE'", [], true) ∧
    errTagged "ERR unknown command 'NOPE'" :=
  c9_parse_error_frame (fun _ st => (.simple "OK", st)) (fun _ => none) []
    (.array [.bulk "nope"]) "ERR unknown command 'NOPE'" rfl

/-- C10: an empty string stored as a value is reported exactly as an
absent value. `GET` replies the empty bulk both for a key holding `""`
and for a missing key; `HGET` replies the empty bulk both for a field
holding `""` and for a missing field; `LPOP` whose popped head is `""`,
`RPOP` whose popped tail is `""` and `LINDEX` whose in-range element is
`""` all reply the empty bulk, the same reply as for a missing key. -/
theorem c10_empty_string_as_absent :
    (∀ st k, lookupStore st k = some (.str "") → getApply st k = .reply (.bulk "")) ∧
    (∀ st k, lookupStore st k = none → getApply st k = .reply (.bulk "")) ∧
    (∀ st k f h, lookupStore st k = some (.hash h) → hashLookup h f = some "" →
      hgetApply st k f = .bulk "") ∧
    (∀ st k f h, lookupStore st k = some (.hash h) → hashLookup h f = none →
      hgetApply st k f = .bulk "") ∧
    (∀ st k xs, lookupStore st k = some (.list ("" :: xs)) →
      lpopApply st k = (.bulk "", storeSet st k (.list xs))) ∧
    (∀ st k, lookupStore st k = none → lpopApply st k = (.bulk "", st)) ∧
    (∀ st k l, lookupStore st k = some (.list l) → l.isEmpty = false →
      l.getLastD "" = "" →
      rpopApply st k = (.bulk "", storeSet st k (.list l.dropLast))) ∧
    (∀ st k l i, lookupStore st k = some (.list l) →
      0 ≤ i → i < (l.length : Int) → l.getD i.toNat "" = "" →
      lindexApply st k i = .bulk "") ∧
    (∀ st k i, lookupStore st k = none → lindexApply st k i = .bulk "") := by
  refine ⟨?_, ?_, ?_, ?_, ?_, ?_, ?_, ?_, ?_⟩
  · intro st k h
    simp [getApply, sGet, h]
  · intro st k h
    simp [getApply, sGet, h]
  · intro st k f hh hlook hfield
    simp [hgetApply, sHGet, hlook, hfield]
  · intro st k f hh hlook hfield
    simp [hgetApply, sHGet, hlook, hfield]
  · intro st k xs h
    simp [lpopApply, sLPop, h]
  · intro st k h
    simp [lpopApply, sLPop, h]
  · intro st k l h hne hlast
    simp only [List.getLastD_eq_getLast?] at hlast
    simp [rpopApply, sRPop, h, hne, hlast]
  · intro st k l i h h0 hlen hget
    have hl0 : l.length ≠ 0 := by omega
    have hidx : (if i < 0 then (l.length : Int) + i else i) = i := if_neg (by omega)
    simp only [lindexApply, sLIndex, h, hidx]
    rw [if_neg hl0, if_neg (by omega : ¬ (i < 0 ∨ i ≥ (l.length : Int)))]
    simp only [List.getD_eq_getElem?_getD] at hget
    simp [hget]
  · intro st k i h
    simp [lindexApply, sLIndex, h]

/-- C10 witness: each conjunct of the empty-string-as-absent statement
evaluated at a concrete store. -/
theorem c10_empty_string_as_absent_witness :
    getApply [("k", Value.str "")] "k" = .reply (.bulk "") ∧
    getApply [] "k" = .reply (.bulk "") ∧
    hgetApply [("h", Value.hash [("f", "")])] "h" "f" = .bulk "" ∧
    hgetApply [("h", Value.hash [("f", "")])] "h" "g" = .bulk "" ∧
    lpopApply [("l", Value.list ["", "a"])] "l" =
      (.bulk "", storeSet [("l", Value.list ["", "a"])] "l" (.list ["a"])) ∧
    lpopApply [] "l" = (.bulk "", []) ∧
    rpopApply [("l", Value.list ["a", ""])] "l" =
      (.bulk "", storeSet [("l", Value.list ["a", ""])] "l" (.list (["a", ""].dropLast))) ∧
    lindexApply [("l", Value.list ["", "a"])] "l" 0 = .bulk "" ∧
    lindexApply [] "l" 0 = .bulk "" :=
  ⟨c10_empty_string_as_absent.1 _ _ rfl,
   c10_empty_string_as_absent.2.1 _ _ rfl,
   c10_empty_string_as_absent.2.2.1 _ _ _ _ rfl rfl,
   c10_empty_string_as_absent.2.2.2.1 _ _ _ _ rfl rfl,
   c10_empty_string_as_absent.2.2.2.2.1 _ _ _ rfl,
   c10_empty_string_as_absent.2.2.2.2.2.1 _ _ rfl,
   c10_empty_string_as_absent.2.2.2.2.2.2.1 _ _ _ rfl rfl rfl,
   c10_empty_string_as_absent.2.2.2.2.2.2.2.1 _ _ _ 0 rfl (by decide) (by decide) rfl,
   c10_empty_string_as_absent.2.2.2.2.2.2.2.2 _ _ 0 rfl⟩
